import Mathlib

/-!
Verification development for `panos/policies.py` of pan-os-python.

The file shallowly embeds the pieces of the module that the specification
talks about:

* a small XML element model standing in for `xml.etree.ElementTree`
  elements (tag, attributes, optional text, ordered children);
* the operational-state readers of `policies.py`
  (`RulebaseHitCount.refresh`, `HitCount._refresh_xml`,
  `OpStateObject._str` / `_int` / `_datetime`,
  `RuleAuditComment.history`, `AuditCommentLog.__init__`),
  translated from the source with the device transport made explicit
  (the response the device would return is an input, and the request the
  code would send is part of the output);
* the schema-driven parameter mapper (`VersionedPanObject` /
  `VersionedParamPath` build and parse), whose engine lives in
  `panos/base.py` outside the provided sources and is therefore modelled
  from the specification, applied to the `SecurityRule` schema data that
  `SecurityRule._setup` declares in the source.
-/

namespace PanosPolicies

/-! ## XML element model -/

/-- An XML element: tag, attributes (in insertion order), optional text and
ordered children.  This mirrors the parts of `xml.etree.ElementTree.Element`
used by `policies.py`. -/
inductive Xml where
  | elem (tag : String) (attrs : List (String × String)) (text : Option String)
      (children : List Xml)

/-- The element's tag. -/
def Xml.tag : Xml → String
  | .elem t _ _ _ => t

/-- The element's attribute list. -/
def Xml.attrs : Xml → List (String × String)
  | .elem _ a _ _ => a

/-- The element's text, `none` when the element has no text. -/
def Xml.text : Xml → Option String
  | .elem _ _ s _ => s

/-- The element's ordered list of children. -/
def Xml.children : Xml → List Xml
  | .elem _ _ _ c => c

/-- Replace the element's children. -/
def Xml.withChildren (x : Xml) (c : List Xml) : Xml :=
  match x with
  | .elem t a s _ => .elem t a s c

/-- Replace the element's text. -/
def Xml.withText (x : Xml) (s : Option String) : Xml :=
  match x with
  | .elem t a _ c => .elem t a s c

/-- Attribute lookup, `elm.attrib.get(name)`. -/
def Xml.getAttr (x : Xml) (name : String) : Option String :=
  (x.attrs.find? (fun p => p.fst = name)).map Prod.snd

/-- First child carrying the given tag, `elm.find("./tag")`. -/
def Xml.findChild (x : Xml) (tag : String) : Option Xml :=
  x.children.find? (fun c => c.tag = tag)

/-- All children carrying the given tag. -/
def Xml.childrenTagged (x : Xml) (tag : String) : List Xml :=
  x.children.filter (fun c => c.tag = tag)

/-- All elements reached by walking the given tag path from the element,
`elm.findall("./a/b/c")`. -/
def Xml.findAll (x : Xml) (path : List String) : List Xml :=
  path.foldl (fun acc seg => acc.flatMap (fun e => e.childrenTagged seg)) [x]

/-! ## Python value helpers

`int(...)` and decimal printing, as used by `OpStateObject._int` and the
query building.  `pyParseNat` accepts a non-empty run of decimal digits;
`pyParseInt` additionally accepts one leading sign, matching `int()` on the
strings the device sends back. -/

/-- Split a character list at every `/`, Python `s.split("/")`. -/
def goSplit : List Char → List (List Char)
  | [] => [[]]
  | c :: rest =>
    let r := goSplit rest
    if c = '/' then [] :: r
    else
      match r with
      | [] => [[c]]
      | h :: t => (c :: h) :: t

/-- Python `s.split("/")`. -/
def splitSlash (s : String) : List String :=
  (goSplit s.data).map (fun cs => String.mk cs)

/-- Numeric value of a decimal digit character, `none` otherwise. -/
def digitVal (c : Char) : Option Nat :=
  if c.isDigit then some (c.toNat - 48) else none

/-- Parse a non-empty all-digit character list as a natural number. -/
def pyParseNat (cs : List Char) : Option Nat :=
  match cs with
  | [] => none
  | _ =>
    cs.foldl
      (fun acc c =>
        match acc, digitVal c with
        | some n, some d => some (n * 10 + d)
        | _, _ => none)
      (some 0)

/-- Model of Python `int(s)` on device-supplied strings: an optional sign
followed by decimal digits. -/
def pyParseInt (s : String) : Option Int :=
  match s.data with
  | '-' :: rest => (pyParseNat rest).map (fun n => -(n : Int))
  | '+' :: rest => (pyParseNat rest).map (fun n => (n : Int))
  | cs => (pyParseNat cs).map (fun n => (n : Int))

/-! ## Errors

One error type covering the exceptions the translated code can raise:
`panos.errors.PanDeviceError`, Python `ValueError` (from `int()` or
`datetime.strptime`), `KeyError` (from `elm.attrib["name"]`) and
`IndexError` (from negative list indexing in `history`). -/

/-- Exceptions raised by the embedded code. -/
inductive Err where
  | panDevice (msg : String)
  | valueError
  | keyError
  | indexError
deriving DecidableEq, Repr

/-! ## `OpStateObject` field readers

Translations of `OpStateObject._str`, `_int` and `_datetime`
(policies.py lines 890-911).  `_str` returns the text of the first child
with the given tag, `None` when the element or the child is absent.
`_int` converts that text with `int(...)` when present.  `_datetime`
tries `datetime.strptime` and keeps the raw string when parsing fails. -/

/-- Translation of `OpStateObject._str(elm, field)`. -/
def opStr (elm : Option Xml) (field : String) : Option String :=
  match elm with
  | none => none
  | some e =>
    match e.findChild field with
    | none => none
    | some c => c.text

/-- Translation of `OpStateObject._int(elm, field)`: absent node stays `none`; a present
node's text goes through `int(...)`, which raises `ValueError` on
non-numeric text. -/
def opInt (elm : Option Xml) (field : String) : Except Err (Option Int) :=
  match opStr elm field with
  | none => .ok none
  | some s =>
    match pyParseInt s with
    | some n => .ok (some n)
    | none => .error .valueError

/-- A calendar timestamp as produced by `datetime.strptime` with format
`%Y/%m/%d %H:%M:%S`. -/
structure DateTime where
  year : Nat
  month : Nat
  day : Nat
  hour : Nat
  minute : Nat
  second : Nat
deriving DecidableEq, Repr

/-- Days in a month, with Gregorian leap years, as validated by
`datetime.__new__`. -/
def daysInMonth (year month : Nat) : Nat :=
  if month = 2 then
    if year % 4 = 0 ∧ (year % 100 ≠ 0 ∨ year % 400 = 0) then 29 else 28
  else if month = 4 ∨ month = 6 ∨ month = 9 ∨ month = 11 then 30
  else 31

/-- Range validation performed by the `datetime` constructor: seconds run
0..59 (`ValueError: second must be in 0..59` otherwise), so a `:60` or
`:61` text fails to parse and is stored as its raw string. -/
def DateTime.valid (d : DateTime) : Bool :=
  1 ≤ d.year && d.year ≤ 9999 && 1 ≤ d.month && d.month ≤ 12 &&
    1 ≤ d.day && d.day ≤ daysInMonth d.year d.month &&
    d.hour ≤ 23 && d.minute ≤ 59 && d.second ≤ 59

/-- Split a character list into its leading run of decimal digits and the
rest. -/
def spanDigits (cs : List Char) : List Char × List Char :=
  match cs with
  | [] => ([], [])
  | c :: rest =>
    if c.isDigit then
      let p := spanDigits rest
      (c :: p.fst, p.snd)
    else ([], cs)

/-- Model of `datetime.strptime(s, "%Y/%m/%d %H:%M:%S")`: a four-digit
year, one-or-two-digit month, day, hour, minute and second separated by
the literal `/`, space and `:` characters, the whole string consumed, and
the resulting fields in the ranges the `datetime` constructor accepts.
Returns `none` where `strptime` raises `ValueError`. -/
def pyStrptimeYmdHms (s : String) : Option DateTime :=
  let (y, r1) := spanDigits s.data
  match r1 with
  | '/' :: r1' =>
    let (mo, r2) := spanDigits r1'
    match r2 with
    | '/' :: r2' =>
      let (d, r3) := spanDigits r2'
      match r3 with
      | ' ' :: r3' =>
        let (h, r4) := spanDigits r3'
        match r4 with
        | ':' :: r4' =>
          let (mi, r5) := spanDigits r4'
          match r5 with
          | ':' :: r5' =>
            let (sec, r6) := spanDigits r5'
            if r6 = [] ∧ y.length = 4 ∧ 1 ≤ mo.length ∧ mo.length ≤ 2 ∧
                1 ≤ d.length ∧ d.length ≤ 2 ∧ 1 ≤ h.length ∧ h.length ≤ 2 ∧
                1 ≤ mi.length ∧ mi.length ≤ 2 ∧ 1 ≤ sec.length ∧
                sec.length ≤ 2 then
              match pyParseNat y, pyParseNat mo, pyParseNat d, pyParseNat h,
                  pyParseNat mi, pyParseNat sec with
              | some yv, some mov, some dv, some hv, some miv, some secv =>
                let dt : DateTime := ⟨yv, mov, dv, hv, miv, secv⟩
                if dt.valid then some dt else none
              | _, _, _, _, _, _ => none
            else none
          | _ => none
        | _ => none
      | _ => none
    | _ => none
  | _ => none

/-- The value `OpStateObject._datetime` stores: nothing when the node is
absent, the parsed timestamp when `strptime` succeeds, the raw text when
it raises `ValueError`. -/
inductive TimeVal where
  | none
  | dt (d : DateTime)
  | raw (s : String)
deriving DecidableEq, Repr

/-- Translation of `OpStateObject._datetime(elm, field, "%Y/%m/%d %H:%M:%S")`
(policies.py lines 904-911). -/
def opDatetime (elm : Option Xml) (field : String) : TimeVal :=
  match opStr elm field with
  | Option.none => .none
  | some s =>
    match pyStrptimeYmdHms s with
    | some d => .dt d
    | Option.none => .raw s

/-! ## `HitCount` snapshots -/

/-- The fields `HitCount._refresh_xml` maintains, in the order of
`HitCount.FIELDS` (policies.py lines 917-925): `latest` is read as a
string, the remaining six as integers.  A field whose XML node is absent
is `none`. -/
structure HCRec where
  latest : Option String
  hit_count : Option Int
  last_hit_timestamp : Option Int
  last_reset_timestamp : Option Int
  first_hit_timestamp : Option Int
  rule_creation_timestamp : Option Int
  rule_modification_timestamp : Option Int
deriving DecidableEq, Repr

/-- A `HitCount` with every field unset, as produced by
`HitCount(obj)` with no element. -/
def HCRec.empty : HCRec :=
  ⟨none, none, none, none, none, none, none⟩

/-- Translation of `HitCount._refresh_xml(elm)` (policies.py lines 940-945): one
`_str` / `_int` per entry of `FIELDS`, failing like `int(...)` does on
non-numeric text. -/
def hcRefreshXml (elm : Option Xml) : Except Err HCRec := do
  let latest := opStr elm "latest"
  let hit_count ← opInt elm "hit-count"
  let last_hit ← opInt elm "last-hit-timestamp"
  let last_reset ← opInt elm "last-reset-timestamp"
  let first_hit ← opInt elm "first-hit-timestamp"
  let rule_creation ← opInt elm "rule-creation-timestamp"
  let rule_modification ← opInt elm "rule-modification-timestamp"
  pure ⟨latest, hit_count, last_hit, last_reset, first_hit, rule_creation,
    rule_modification⟩

/-! ## `RulebaseHitCount.refresh`

Translation of policies.py lines 815-887.  The surrounding system is made
explicit: the device is its version and vsys, the transport is the XML
document `dev.op` would return, and the request the code sends (if any)
is reported in the output.  A child of the rulebase is its `uid`, its
`HIT_COUNT_STYLE` (absent for objects without that attribute) and its
current `opstate.hit_count` snapshot. -/

/-- A child attached to the rulebase object. -/
structure Child where
  uid : String
  hitCountStyle : Option String
  hitCount : HCRec
deriving DecidableEq, Repr

/-- An element of the `rules` argument: a plain string or a rule object
(anything with a `uid`). -/
inductive RuleRef where
  | byName (s : String)
  | byObj (uid : String)
deriving DecidableEq, Repr

/-- The text placed in a request `<member>`: `x.uid` if `x` has a `uid`,
else `x` itself (policies.py lines 866-870). -/
def RuleRef.text : RuleRef → String
  | .byName s => s
  | .byObj u => u

/-- Python `x.uid in rules`: a string equals a string element of the
list; it never equals a rule object (default object equality). -/
def uidInRules (rules : List RuleRef) (uid : String) : Bool :=
  rules.any fun r =>
    match r with
    | .byName s => s = uid
    | .byObj _ => false

/-- The child filter of policies.py lines 842-847: keep children that
have a `HIT_COUNT_STYLE` equal to `style` and, when `rules` is given,
whose `uid` occurs in it. -/
def kidPred (style : String) (rules : Option (List RuleRef)) (c : Child) :
    Bool :=
  c.hitCountStyle = some style &&
    (match rules with
     | none => true
     | some rs => uidInRules rs c.uid)

/-- Translation of `dev.vsys or "vsys1"` (policies.py line 853): Python `or` replaces a
falsy vsys — `None` or the empty string — with `"vsys1"`. -/
def vsysOrDefault (vsys : Option String) : String :=
  match vsys with
  | none => "vsys1"
  | some s => if s = "" then "vsys1" else s

/-- The request element built by policies.py lines 849-859, parametrized
by the children of the `<rules>` node (`<all/>` or the `<list>`). -/
def hitCountCmd (vsys : Option String) (style : String)
    (rulesChildren : List Xml) : Xml :=
  .elem "show" [] none
    [.elem "rule-hit-count" [] none
      [.elem "vsys" [] none
        [.elem "vsys-name" [] none
          [.elem "entry" [("name", vsysOrDefault vsys)] none
            [.elem "rule-base" [] none
              [.elem "entry" [("name", style)] none
                [.elem "rules" [] none rulesChildren]]]]]]]

/-- The response path walked on policies.py lines 875-877. -/
def hitCountEntries (res : Xml) : List Xml :=
  res.findAll
    ["result", "rule-hit-count", "vsys", "entry", "rule-base", "entry",
      "rules", "entry"]

/-- A value of the mapping `refresh` returns: the live snapshot of an
attached rule entity (updated in place), or a freshly synthesized
standalone `HitCount` not attached to any entity. -/
inductive HCEntry where
  | live (rec : HCRec)
  | standalone (rec : HCRec)
deriving DecidableEq, Repr

/-- The snapshot carried by a mapping value. -/
def HCEntry.snapshot : HCEntry → HCRec
  | .live r => r
  | .standalone r => r

/-- Python dict insertion: an existing key keeps its position and gets the
new value, a new key is appended. -/
def dictInsert (m : List (String × HCEntry)) (k : String) (v : HCEntry) :
    List (String × HCEntry) :=
  match m with
  | [] => [(k, v)]
  | (k', v') :: rest =>
    if k' = k then (k, v) :: rest else (k', v') :: dictInsert rest k v

/-- Dict lookup by key. -/
def dictFind (m : List (String × HCEntry)) (k : String) : Option HCEntry :=
  (m.find? (fun p => p.fst = k)).map Prod.snd

/-- Update the first child that the filter selects and that carries the
given uid — the object mutated by `x.opstate.hit_count.refresh(elm)` on
policies.py line 881. -/
def updateFirstKid (pred : Child → Bool) (name : String) (rec : HCRec) :
    List Child → List Child
  | [] => []
  | c :: cs =>
    if pred c && c.uid = name then { c with hitCount := rec } :: cs
    else c :: updateFirstKid pred name rec cs

/-- The test the response loop applies to a selected child: selected by
the filter and carrying the entry's name. -/
def kidMatch (pred : Child → Bool) (n : String) (c : Child) : Bool :=
  pred c && c.uid = n

/-- Whether some selected child carries the given rule name. -/
def hasKid (pred : Child → Bool) (ch : List Child) (n : String) : Bool :=
  (ch.filter pred).any (fun c => c.uid = n)

/-- The snapshot of the first selected child carrying the given name. -/
def kidSnapshot (pred : Child → Bool) (ch : List Child) (n : String) :
    Option HCRec :=
  (ch.find? (kidMatch pred n)).map Child.hitCount

/-- The identity of a child list: uids and styles, without snapshots. -/
def skeleton (ch : List Child) : List (String × Option String) :=
  ch.map (fun c => (c.uid, c.hitCountStyle))

/-- The response-mapping invariant: every name in the mapping points to
the live snapshot of the first selected child of that name when one
exists, and to a standalone record otherwise. -/
def goodAns (pred : Child → Bool) (ch : List Child)
    (ans : List (String × HCEntry)) : Prop :=
  ∀ n e, dictFind ans n = some e →
    (hasKid pred ch n = true →
      ∃ r, e = .live r ∧ kidSnapshot pred ch n = some r) ∧
    (hasKid pred ch n = false → ∃ r, e = .standalone r)

/-- The response loop of policies.py lines 874-887: for each
`<entry name="...">`, update and record the live snapshot of the first
matching selected child, or synthesize a standalone `HitCount`. -/
def processEntries (pred : Child → Bool) :
    List Xml → List Child → List (String × HCEntry) →
    Except Err (List (String × HCEntry) × List Child)
  | [], children, ans => .ok (ans, children)
  | elm :: rest, children, ans => do
    match elm.getAttr "name" with
    | none => .error .keyError
    | some name =>
      let r ← hcRefreshXml (some elm)
      if hasKid pred children name then
        processEntries pred rest (updateFirstKid pred name r children)
          (dictInsert ans name (.live r))
      else
        processEntries pred rest children
          (dictInsert ans name (.standalone r))

/-- The outcome of `RulebaseHitCount.refresh`: the operational request it
sent (`none` when it returned or raised before sending one) and either the
raised exception or the returned mapping together with the children after
their in-place snapshot updates. -/
structure RefreshOut where
  request : Option Xml
  result : Except Err (List (String × HCEntry) × List Child)

/-- Python tuple comparison `a < b` on three-part version numbers:
lexicographic. -/
def versionLt (a b : Nat × Nat × Nat) : Bool :=
  a.1 < b.1 || (a.1 = b.1 && (a.2.1 < b.2.1 ||
    (a.2.1 = b.2.1 && a.2.2 < b.2.2)))

/-- The rule list the request is built from, Python
`rule_list = rules or kids or []`: the explicit rules when given and
non-empty, else the selected children (as rule objects), else empty. -/
def pyRuleList (rules : Option (List RuleRef)) (kids : List Child) :
    List RuleRef :=
  if (match rules with
      | none => ([] : List RuleRef)
      | some rs => rs).isEmpty then
    kids.map (fun k => .byObj k.uid)
  else
    match rules with
    | none => []
    | some rs => rs

/-- Translation of `RulebaseHitCount.refresh(style, rules, all_rules)`
(policies.py lines 815-887), with the device version, device vsys,
attached children and the device's response supplied explicitly. -/
def rbhcRefresh (ver : Nat × Nat × Nat) (vsys : Option String)
    (children : List Child) (style : String)
    (rules : Option (List RuleRef)) (allRules : Bool) (response : Xml) :
    RefreshOut :=
  if versionLt ver (8, 1, 0) then
    ⟨none, .error (.panDevice "Rule hit count is supported in PAN-OS 8.1+")⟩
  else if allRules then
    ⟨some (hitCountCmd vsys style [.elem "all" [] none []]),
      processEntries (kidPred style rules) (hitCountEntries response)
        children []⟩
  else if (pyRuleList rules (children.filter (kidPred style rules))).isEmpty
      then
    ⟨none, .ok ([], children)⟩
  else
    ⟨some (hitCountCmd vsys style
      [.elem "list" [] none
        ((pyRuleList rules (children.filter (kidPred style rules))).map
          (fun r => .elem "member" [] (some r.text) []))]),
      processEntries (kidPred style rules) (hitCountEntries response)
        children []⟩

/-! ## `RuleAuditComment.history` and `AuditCommentLog`

Translation of policies.py lines 957-1011 and 1051-1058.  Collaborators
outside the excerpt (`xpath_short`, the parent's `xpath` and `vsys`, the
log transport) are explicit inputs; the log query the code submits is
reported in the output. -/

/-- A single parsed audit-comment log entry
(`AuditCommentLog.__init__`, policies.py lines 1054-1058). -/
structure ACLRec where
  admin : Option String
  comment : Option String
  config_version : Option Int
  time : TimeVal
deriving DecidableEq, Repr

/-- Translation of `AuditCommentLog(elm)`: `_str` for `admin` and `comment`, `_int` for
`config_ver`, `_datetime` for `time_generated`. -/
def mkAuditCommentLog (elm : Xml) : Except Err ACLRec := do
  let admin := opStr (some elm) "admin"
  let comment := opStr (some elm) "comment"
  let cfg ← opInt (some elm) "config_ver"
  pure ⟨admin, comment, cfg, opDatetime (some elm) "time_generated"⟩

/-- Which rulebase class the rule's parent is an instance of. -/
inductive RBKind where
  | rulebase
  | preRulebase
  | postRulebase
  | other
deriving DecidableEq, Repr

/-- The parent object of the rule, as `history` sees it: its class, its
`xpath()` and its `vsys`. -/
structure RBParent where
  kind : RBKind
  xpath : String
  vsys : Option String
deriving DecidableEq, Repr

/-- Python `"{0}".format(v)` on an optional string: `None` prints as
`"None"`. -/
def pyFormatOptStr (v : Option String) : String :=
  match v with
  | none => "None"
  | some s => s

/-- Python `lst[-2]`: second-to-last element, `IndexError` when the list
is shorter than two. -/
def pyIdxNeg2 (l : List String) : Except Err String :=
  match l.reverse with
  | _ :: x :: _ => .ok x
  | _ => .error .indexError

/-- The log-retrieval call made through `dev.xapi.log`. -/
structure LogQuery where
  logType : String
  count : Int
  filter : String
  extraQs : List (String × String)
deriving DecidableEq, Repr

/-- The outcome of `RuleAuditComment.history`: the log query submitted
(`none` when an exception fired first) and the raised exception or the
parsed entries. -/
structure HistoryOut where
  query : Option LogQuery
  result : Except Err (List ACLRec)

/-- Translation of `RuleAuditComment.history(count, direction, skip)`
(policies.py lines 967-1011).  `uid` is the rule's name, `xpathShort` the
string returned by `self.obj.xpath_short()`, `parent` the rule's parent
(`none` models `parent is None`), and `response` is the XML document the
log transport returns. -/
def history (uid : String) (xpathShort : String) (parent : Option RBParent)
    (count : Int) (direction : String) (skip : Option Int) (response : Xml) :
    HistoryOut :=
  let q0 := "(subtype eq audit-comment)"
  let q1 := q0 ++ " and (path contains \x27\\\x27" ++ uid ++ "\\\x27\x27)"
  match pyIdxNeg2 (splitSlash xpathShort) with
  | .error e => ⟨none, .error e⟩
  | .ok ruleTypeSeg =>
    let q2 := q1 ++ " and (path contains \x27" ++ ruleTypeSeg ++ "\x27)"
    match parent with
    | none => ⟨none, .error (.panDevice "rule has empty parent")⟩
    | some p =>
      if p.kind = .other then
        ⟨none, .error (.panDevice (uid ++ " has non-rulebase parent"))⟩
      else
        let rbSeg := (splitSlash p.xpath).getLastD ""
        let q3 := q2 ++ " and (path contains " ++ rbSeg ++ ")"
        let q4 := q3 ++ " and (path contains \x27\\\x27" ++
          pyFormatOptStr p.vsys ++ "\\\x27\x27)"
        let extraQs :=
          [("dir", direction), ("uniq", "yes")] ++
            (match skip with
             | none => []
             | some n => [("skip", toString n)])
        let lq : LogQuery := ⟨"config", count, q4, extraQs⟩
        ⟨some lq,
          (response.findAll ["result", "log", "logs", "entry"]).mapM
            mkAuditCommentLog⟩

/-! ## Schema-driven parameter mapper

The build/parse engine of `VersionedPanObject` / `VersionedParamPath`
lives in `panos/base.py`, which is not part of the provided sources; the
definitions in this section are modelled from the specification
(spec sections 3 and 4.1).  The `SecurityRule` schema data below them is
translated from `SecurityRule._setup` in the provided source. -/

/-- Modelled from the spec: the value kinds of a parameter specification
(scalar string, boolean-as-token, integer, member-list, entry-list) plus
the source's `attrib` kind used by version-gated `uuid` parameters. -/
inductive VarType where
  | vstr
  | yesno
  | vint
  | member
  | entry
  | attrib
deriving DecidableEq, Repr

/-- A parameter value: unset, a scalar string, a boolean, an integer, or
an ordered list of strings (member- and entry-lists). -/
inductive PValue where
  | unset
  | str (s : String)
  | bool (b : Bool)
  | int (n : Int)
  | list (xs : List String)
deriving DecidableEq, Repr

/-- Modelled from the spec: a path segment is a literal element name or a
placeholder referring to another parameter's current value. -/
inductive PathSeg where
  | lit (s : String)
  | ref (param : String)
deriving DecidableEq, Repr

/-- Modelled from the spec: a version override added by `add_profile` —
a minimum device version with a replacement path and value kind. -/
structure VerProfile where
  minVersion : Nat × Nat × Nat
  path : List PathSeg
  vartype : VarType
deriving Repr

/-- Modelled from the spec: one named parameter specification.
`basePath = none` renders the source's `exclude=True` (the parameter is
absent from the base schema and only activated by a version override). -/
structure ParamSpec where
  name : String
  default : PValue
  vartype : VarType
  basePath : Option (List PathSeg)
  values : List String
  condition : List (String × List String)
  profiles : List VerProfile
deriving Repr

/-- Version order `a ≤ b` on triples (Python tuple comparison). -/
def versionLe (a b : Nat × Nat × Nat) : Bool :=
  !(versionLt b a)

/-- Modelled from the spec (step 1 of build/parse): resolve the effective
path and value kind at a device version — start from the base declaration
and let each qualifying override, in declaration (ascending) order,
replace it; a parameter with no effective path does not exist at this
version. -/
def effectiveSpec (v : Nat × Nat × Nat) (p : ParamSpec) :
    Option (List PathSeg × VarType) :=
  let resolved := p.profiles.foldl
    (fun acc pr =>
      if versionLe pr.minVersion v then (some pr.path, pr.vartype) else acc)
    (p.basePath, p.vartype)
  match resolved with
  | (none, _) => none
  | (some segs, vt) => some (segs, vt)

/-- The string a placeholder substitutes: the referenced parameter's
scalar value, unresolvable otherwise. -/
def valueAsString : PValue → Option String
  | .str s => some s
  | _ => none

/-- Modelled from the spec (step 3): resolve path placeholders against the
current values; `none` when some referenced parameter has no resolvable
value (the parameter is then skipped). -/
def resolveSegs (env : String → PValue) : List PathSeg → Option (List String)
  | [] => some []
  | sg :: rest =>
    let sv : Option String :=
      match sg with
      | .lit s => some s
      | .ref n => valueAsString (env n)
    match sv, resolveSegs env rest with
    | some s, some l => some (s :: l)
    | _, _ => none

/-- Modelled from the spec (step 2): every activation condition names a
parameter whose current scalar value must lie in the allowed set. -/
def conditionHolds (env : String → PValue) (cond : List (String × List String)) :
    Bool :=
  cond.all fun nc =>
    match env nc.fst with
    | .str s => nc.snd.contains s
    | _ => false

/-- Whether a value fits a value kind. -/
def wellTypedB : VarType → PValue → Bool
  | .vstr, .str _ => true
  | .yesno, .bool _ => true
  | .vint, .int _ => true
  | .member, .list _ => true
  | .entry, .list _ => true
  | .attrib, .str _ => true
  | _, _ => false

/-- Decimal rendering of an integer, the on-wire text of an integer
field. -/
def pyIntStr (n : Int) : String :=
  if n < 0 then "-" ++ String.mk (Nat.toDigits 10 n.natAbs)
  else String.mk (Nat.toDigits 10 n.toNat)

/-- Modelled from the spec (step 4): attach the leaf representation of a
value to the resolved path's final element — scalar text, `yes`/`no`
tokens, decimal text, one `<member>` per item, or one named `<entry>` per
item. -/
def applyPayload (vt : VarType) (val : PValue) (x : Xml) : Xml :=
  match vt, val with
  | .vstr, .str s => x.withText (some s)
  | .yesno, .bool b => x.withText (some (if b then "yes" else "no"))
  | .vint, .int n => x.withText (some (pyIntStr n))
  | .member, .list xs =>
    x.withChildren (xs.map (fun s => .elem "member" [] (some s) []))
  | .entry, .list xs =>
    x.withChildren (xs.map (fun s => .elem "entry" [("name", s)] none []))
  | _, _ => x

/-- Walk one path segment while building: enter the first child with the
segment's tag, creating it (once) at the end when absent. -/
def insertChildren (ins : Xml → Xml) (s : String) : List Xml → List Xml
  | [] => [ins (Xml.elem s [] none [])]
  | c :: cs => if c.tag = s then ins c :: cs else c :: insertChildren ins s cs

/-- Modelled from the spec (step 4): materialize a resolved path as a
chain of elements, sharing intermediate elements with previously emitted
parameters, and attach the leaf payload. -/
def insertPath (vt : VarType) (val : PValue) : List String → Xml → Xml
  | [], x => applyPayload vt val x
  | s :: rest, x =>
    x.withChildren (insertChildren (insertPath vt val rest) s x.children)

/-- Set an attribute on an element, replacing an existing binding. -/
def setAttr (x : Xml) (name val : String) : Xml :=
  match x with
  | .elem t a s c =>
    if (a.find? (fun pr => pr.fst = name)).isSome then
      .elem t (a.map (fun pr => if pr.fst = name then (name, val) else pr)) s c
    else .elem t (a ++ [(name, val)]) s c

/-- Modelled from the spec: emit one parameter into the tree under
construction — skip it when it has no effective path at this version,
when its activation condition fails, when a placeholder is unresolvable,
or when its value is unset; report a value error for an ill-typed value
or a value outside the allowed set.  The source's `attrib` kind stores
the value as an attribute of the entity's root element. -/
def buildParam (v : Nat × Nat × Nat) (env : String → PValue) (x : Xml)
    (p : ParamSpec) : Except Err Xml :=
  match effectiveSpec v p with
  | none => .ok x
  | some (segs, vt) =>
    if conditionHolds env p.condition then
      match resolveSegs env segs with
      | none => .ok x
      | some path =>
        match env p.name with
        | .unset => .ok x
        | val =>
          if wellTypedB vt val then
            if p.values.isEmpty ||
                (match val with
                 | .str s => p.values.contains s
                 | _ => false) then
              match vt, val with
              | .attrib, .str s => .ok (setAttr x (path.getLastD "") s)
              | _, _ => .ok (insertPath vt val path x)
            else .error .valueError
          else .error .valueError
    else .ok x

/-- Modelled from the spec: `build(entity, device_version)` — emit every
parameter in schema declaration order into the entity's root element. -/
def buildEntity (ps : List ParamSpec) (v : Nat × Nat × Nat)
    (env : String → PValue) : Except Err Xml :=
  ps.foldlM (buildParam v env) (Xml.elem "entry" [] none [])

/-- Locate the element at a resolved path. -/
def findPath : List String → Xml → Option Xml
  | [], x => some x
  | s :: rest, x =>
    match x.findChild s with
    | some c => findPath rest c
    | none => none

/-- Modelled from the spec: decode a leaf element per value kind —
element text for scalars, case-sensitive `yes`/`no` tokens, decimal text
for integers, the texts of `<member>` children, the `name` attributes of
`<entry>` children. -/
def decodeLeaf (vt : VarType) (x : Xml) : PValue :=
  match vt with
  | .vstr =>
    match x.text with
    | some s => .str s
    | none => .unset
  | .yesno =>
    match x.text with
    | some s => if s = "yes" then .bool true
      else if s = "no" then .bool false else .unset
    | none => .unset
  | .vint =>
    match x.text with
    | some s =>
      match pyParseInt s with
      | some n => .int n
      | none => .unset
    | none => .unset
  | .member => .list ((x.childrenTagged "member").map (fun c => c.text.getD ""))
  | .entry =>
    .list ((x.childrenTagged "entry").map (fun c => (c.getAttr "name").getD ""))
  | .attrib => .unset

/-- Update a value environment at one name. -/
def updateEnv (env : String → PValue) (n : String) (val : PValue) :
    (String → PValue) :=
  fun m => if m = n then val else env m

/-- Modelled from the spec: the parse loop — for each effective parameter
whose condition holds against the progressively parsed values, locate its
resolved path, taking the schema default when absent; the `attrib` kind
reads the root element's attribute. -/
def parseEntityAux (v : Nat × Nat × Nat) (x : Xml) :
    List ParamSpec → (String → PValue) → List (String × PValue)
  | [], _ => []
  | p :: rest, env =>
    match effectiveSpec v p with
    | none => parseEntityAux v x rest env
    | some (segs, vt) =>
      if conditionHolds env p.condition then
        match resolveSegs env segs with
        | none => parseEntityAux v x rest env
        | some path =>
          let val :=
            match vt with
            | .attrib =>
              match x.getAttr (path.getLastD "") with
              | some s => .str s
              | none => p.default
            | _ =>
              match findPath path x with
              | none => p.default
              | some leaf => decodeLeaf vt leaf
          (p.name, val) :: parseEntityAux v x rest (updateEnv env p.name val)
      else parseEntityAux v x rest env

/-- Modelled from the spec: `parse(xml_subtree, device_version)` — the
reconstructed `(name, value)` pairs of the effective parameters, in
schema order. -/
def parseEntity (ps : List ParamSpec) (v : Nat × Nat × Nat) (x : Xml) :
    List (String × PValue) :=
  parseEntityAux v x ps (fun _ => .unset)

/-! ## `SecurityRule` schema data

Transcription of the `VersionedParamPath` declarations in
`SecurityRule._setup` (policies.py lines 136-242). -/

/-- A slash-separated literal path, as written in the source. -/
def litPath (path : String) : List PathSeg :=
  (splitSlash path).map .lit

/-- A parameter with only a base declaration: no allowed-value set, no
condition, no version overrides. -/
def baseParam (name : String) (default : PValue) (vt : VarType)
    (path : String) : ParamSpec :=
  ⟨name, default, vt, some (litPath path), [], [], []⟩

/-- An `exclude=True` parameter activated by a single `add_profile`. -/
def excludedParam (name : String) (default : PValue) (minV : Nat × Nat × Nat)
    (vt : VarType) (path : String) : ParamSpec :=
  ⟨name, default, .vstr, none, [], [], [⟨minV, litPath path, vt⟩]⟩

/-- The ordered parameter schema of `SecurityRule`. -/
def securityRuleParams : List ParamSpec :=
  [baseParam "fromzone" (.list ["any"]) .member "from",
    baseParam "tozone" (.list ["any"]) .member "to",
    baseParam "source" (.list ["any"]) .member "source",
    baseParam "source_user" (.list ["any"]) .member "source-user",
    baseParam "hip_profiles" (.list ["any"]) .member "hip-profiles",
    baseParam "destination" (.list ["any"]) .member "destination",
    baseParam "application" (.list ["any"]) .member "application",
    baseParam "service" (.str "application-default") .member "service",
    baseParam "category" (.list ["any"]) .member "category",
    baseParam "action" .unset .vstr "action",
    baseParam "log_setting" .unset .vstr "log-setting",
    baseParam "log_start" .unset .yesno "log-start",
    baseParam "log_end" .unset .yesno "log-end",
    baseParam "description" .unset .vstr "description",
    baseParam "type" (.str "universal") .vstr "rule-type",
    baseParam "tag" .unset .member "tag",
    baseParam "negate_source" .unset .yesno "negate-source",
    baseParam "negate_destination" .unset .yesno "negate-destination",
    baseParam "disabled" .unset .yesno "disabled",
    baseParam "schedule" .unset .vstr "schedule",
    baseParam "icmp_unreachable" .unset .yesno "icmp-unreachable",
    baseParam "disable_server_response_inspection" .unset .yesno
      "option/disable-server-response-inspection",
    baseParam "group" .unset .member "profile-setting/group",
    baseParam "negate_target" .unset .yesno "target/negate",
    baseParam "target" .unset .entry "target/devices",
    baseParam "virus" .unset .member "profile-setting/profiles/virus",
    baseParam "spyware" .unset .member "profile-setting/profiles/spyware",
    baseParam "vulnerability" .unset .member
      "profile-setting/profiles/vulnerability",
    baseParam "url-filtering" .unset .member
      "profile-setting/profiles/url-filtering",
    baseParam "file-blocking" .unset .member
      "profile-setting/profiles/file-blocking",
    baseParam "wildfire-analysis" .unset .member
      "profile-setting/profiles/wildfire-analysis",
    baseParam "data-filtering" .unset .member
      "profile-setting/profiles/data-filtering",
    excludedParam "uuid" .unset (9, 0, 0) .attrib "uuid",
    excludedParam "source_devices" (.list ["any"]) (10, 0, 0) .member
      "source-hip",
    excludedParam "destination_devices" (.list ["any"]) (10, 0, 0) .member
      "destination-hip",
    excludedParam "group_tag" .unset (9, 0, 0) .vstr "group-tag"]

/-- The `SecurityRule` parameter specifications that carry no version
overrides. -/
def securityRuleNoOverrideParams : List ParamSpec :=
  securityRuleParams.filter (fun p => p.profiles.isEmpty)

/-! ## Side conditions for the build/parse round trip -/

/-- Whether a path consists of literal segments only. -/
def litOnlySegs (segs : List PathSeg) : Bool :=
  segs.all fun sg =>
    match sg with
    | .lit _ => true
    | .ref _ => false

/-- The literal segments of a parameter's base path. -/
def pLitPath (p : ParamSpec) : List String :=
  match p.basePath with
  | some segs =>
    segs.filterMap fun sg =>
      match sg with
      | .lit s => some s
      | .ref _ => none
  | none => []

/-- A plain parameter specification: no version overrides, no activation
condition, no allowed-value set, a non-empty all-literal base path, and
neither the integer nor the attribute value kind. -/
def plainParam (p : ParamSpec) : Bool :=
  p.profiles.isEmpty && p.condition.isEmpty && p.values.isEmpty &&
    (match p.basePath with
     | some segs => litOnlySegs segs && !segs.isEmpty
     | none => false) &&
    p.vartype != .vint && p.vartype != .attrib

/-- Two paths are independent when neither is a prefix of the other, so
the element chain of one never passes through the leaf of the other. -/
def pathIndepB (a b : List String) : Bool :=
  !(a.isPrefixOf b) && !(b.isPrefixOf a)

/-- Pairwise path independence across a schema. -/
def pathsIndep : List ParamSpec → Bool
  | [] => true
  | p :: rest =>
    rest.all (fun q => pathIndepB (pLitPath p) (pLitPath q)) && pathsIndep rest

/-- One parameter's value is admissible: an unset value is allowed only
when the schema default is also unset (the entity holds a value for every
parameter, or the default), and a set value fits the value kind. -/
def envOk1 (env : String → PValue) (p : ParamSpec) : Bool :=
  match env p.name with
  | .unset => p.default == .unset
  | val => wellTypedB p.vartype val

/-- All parameter values of an entity are admissible. -/
def envOkB (ps : List ParamSpec) (env : String → PValue) : Bool :=
  ps.all (envOk1 env)

/-- The pure insertion a plain parameter performs during build: nothing
for an unset value, otherwise the leaf payload at the literal path. -/
def insOne (env : String → PValue) (x : Xml) (p : ParamSpec) : Xml :=
  match env p.name with
  | .unset => x
  | val => insertPath p.vartype val (pLitPath p) x

/-- The value parse reconstructs for a plain parameter: the schema
default when the path is absent, the decoded leaf otherwise. -/
def parseOne (x : Xml) (p : ParamSpec) : PValue :=
  match findPath (pLitPath p) x with
  | none => p.default
  | some leaf => decodeLeaf p.vartype leaf

/-! ## Concrete inputs used by witnesses -/

/-- A sample assignment of admissible values to every `SecurityRule`
parameter without version overrides. -/
def sampleEnvList : List (String × PValue) :=
  [("fromzone", .list ["trust"]), ("tozone", .list ["untrust"]),
    ("source", .list ["any"]), ("source_user", .list ["any"]),
    ("hip_profiles", .list ["any"]), ("destination", .list ["10.0.0.1"]),
    ("application", .list ["web-browsing", "ssl"]),
    ("service", .list ["application-default"]), ("category", .list []),
    ("action", .str "allow"), ("log_setting", .str "default"),
    ("log_start", .bool true), ("log_end", .bool false),
    ("description", .str "demo rule"), ("type", .str "universal"),
    ("tag", .list ["prod"]), ("negate_source", .bool false),
    ("negate_destination", .bool false), ("disabled", .bool false),
    ("schedule", .str "always"), ("icmp_unreachable", .bool false),
    ("disable_server_response_inspection", .bool false),
    ("group", .list ["grp1"]), ("negate_target", .bool false),
    ("target", .list ["fw1", "fw2"]), ("virus", .list ["strict"]),
    ("spyware", .list ["strict"]), ("vulnerability", .list ["strict"]),
    ("url-filtering", .list ["default"]), ("file-blocking", .list ["basic"]),
    ("wildfire-analysis", .list ["default"]), ("data-filtering", .list [])]

/-- The sample entity's value environment. -/
def sampleEnv (n : String) : PValue :=
  ((sampleEnvList.find? (fun p => p.fst = n)).map Prod.snd).getD .unset

/-- The vsys name carried by the `<entry>` under `<vsys-name>` of a
hit-count request. -/
def getVsysEntryName (r : Xml) : Option String :=
  ((r.findAll ["rule-hit-count", "vsys", "vsys-name", "entry"]).head?).bind
    (fun e => e.getAttr "name")

/-- The hit-count response entry of the spec's example:
`<entry name="r1"><hit-count>42</hit-count></entry>`. -/
def entry42 : Xml :=
  .elem "entry" [("name", "r1")] none [.elem "hit-count" [] (some "42") []]

/-- The snapshot parsed from `entry42`. -/
def rec42 : HCRec :=
  ⟨none, some 42, none, none, none, none, none⟩

/-- A rulebase child named `r1` of hit-count style `security`. -/
def securityChild : Child :=
  ⟨"r1", some "security", HCRec.empty⟩

/-- A rulebase child named `r1` of hit-count style `nat`. -/
def natChild : Child :=
  ⟨"r1", some "nat", HCRec.empty⟩

/-- A device response whose rule-base results hold one entry, named `r1`,
with a hit count of 7. -/
def responseR1 : Xml :=
  .elem "response" [] none
    [.elem "result" [] none
      [.elem "rule-hit-count" [] none
        [.elem "vsys" [] none
          [.elem "entry" [("name", "vsys1")] none
            [.elem "rule-base" [] none
              [.elem "entry" [("name", "security")] none
                [.elem "rules" [] none
                  [.elem "entry" [("name", "r1")] none
                    [.elem "hit-count" [] (some "7") []]]]]]]]]]

/-- The snapshot parsed from the `r1` entry of `responseR1`. -/
def rec7 : HCRec :=
  ⟨none, some 7, none, none, none, none, none⟩

/-- An empty device response. -/
def emptyResponse : Xml :=
  .elem "response" [] none []

/-- A firewall rulebase parent for the audit-comment examples. -/
def c8Parent : RBParent :=
  ⟨.rulebase, "/x/vsys/rulebase", some "vsys1"⟩

/-- An audit-comment log entry with a well-formed timestamp. -/
def entryGoodTime : Xml :=
  .elem "entry" [] none
    [.elem "admin" [] (some "admin1") [],
      .elem "comment" [] (some "hello") [],
      .elem "config_ver" [] (some "3") [],
      .elem "time_generated" [] (some "2021/01/02 03:04:05") []]

/-- The record parsed from `entryGoodTime`. -/
def logGood : ACLRec :=
  ⟨some "admin1", some "hello", some 3, .dt ⟨2021, 1, 2, 3, 4, 5⟩⟩

/-- An audit-comment log entry whose timestamp is not a date. -/
def entryBadTime : Xml :=
  .elem "entry" [] none
    [.elem "time_generated" [] (some "not-a-date") []]

/-- The record parsed from `entryBadTime`: the raw text is preserved. -/
def logBad : ACLRec :=
  ⟨none, none, none, .raw "not-a-date"⟩

/-- An audit-comment log entry with no timestamp node. -/
def entryNoTime : Xml :=
  .elem "entry" [] none [.elem "admin" [] (some "admin2") []]

/-- The record parsed from `entryNoTime`: the time stays unset. -/
def logNone : ACLRec :=
  ⟨some "admin2", none, none, .none⟩

/-! ## Lemmas: XML tree building and lookup -/

theorem Xml.tag_withChildren (x : Xml) (cs : List Xml) :
    (x.withChildren cs).tag = x.tag := by
  cases x; rfl

theorem Xml.tag_withText (x : Xml) (s : Option String) :
    (x.withText s).tag = x.tag := by
  cases x; rfl

theorem Xml.children_withChildren (x : Xml) (cs : List Xml) :
    (x.withChildren cs).children = cs := by
  cases x; rfl

theorem Xml.findChild_withChildren (x : Xml) (cs : List Xml) (s : String) :
    (x.withChildren cs).findChild s = cs.find? (fun c => c.tag = s) := by
  cases x; rfl

theorem applyPayload_tag (vt : VarType) (val : PValue) (x : Xml) :
    (applyPayload vt val x).tag = x.tag := by
  cases vt <;> cases val <;>
    simp [applyPayload, Xml.tag_withText, Xml.tag_withChildren]

theorem insertPath_tag (vt : VarType) (val : PValue) (segs : List String)
    (x : Xml) : (insertPath vt val segs x).tag = x.tag := by
  cases segs with
  | nil => exact applyPayload_tag vt val x
  | cons s rest => simp [insertPath, Xml.tag_withChildren]

theorem find?_insertChildren_self (ins : Xml → Xml) (s : String)
    (hins : ∀ c, (ins c).tag = c.tag) (ch : List Xml) :
    (insertChildren ins s ch).find? (fun c => c.tag = s) =
      some (ins ((ch.find? (fun c => c.tag = s)).getD (Xml.elem s [] none []))) := by
  have hfresh : (ins (Xml.elem s [] none [])).tag = s := by
    rw [hins]; rfl
  induction ch with
  | nil => simp [insertChildren, List.find?_cons, hfresh]
  | cons c cs ih =>
    by_cases h : c.tag = s
    · have : (ins c).tag = s := by rw [hins]; exact h
      simp [insertChildren, h, List.find?_cons, this]
    · simp [insertChildren, h, List.find?_cons, ih]

theorem find?_insertChildren_ne (ins : Xml → Xml) (s a : String)
    (hins : ∀ c, (ins c).tag = c.tag) (hne : a ≠ s) (ch : List Xml) :
    (insertChildren ins s ch).find? (fun c => c.tag = a) =
      ch.find? (fun c => c.tag = a) := by
  have hne' : ¬ s = a := fun he => hne he.symm
  have hfresh : ¬ (ins (Xml.elem s [] none [])).tag = a := by
    rw [hins]; exact hne'
  induction ch with
  | nil => simp [insertChildren, List.find?_cons, hfresh]
  | cons c cs ih =>
    by_cases h : c.tag = s
    · have h1 : ¬ (ins c).tag = a := by
        rw [hins, h]; exact hne'
      have h2 : ¬ c.tag = a := by rw [h]; exact hne'
      simp [insertChildren, h, List.find?_cons, h1, h2, hne']
    · by_cases hca : c.tag = a
      · simp [insertChildren, h, List.find?_cons, hca, hne]
      · simp [insertChildren, h, List.find?_cons, hca, ih]

theorem findPath_insertPath_of_indep (vt : VarType) (val : PValue) :
    ∀ (p q : List String) (x : Xml), p.isPrefixOf q = false →
      q.isPrefixOf p = false →
      findPath p (insertPath vt val q x) = findPath p x := by
  intro p
  induction p with
  | nil => intro q x hpq _; simp [List.isPrefixOf] at hpq
  | cons a p' ih =>
    intro q x hpq hqp
    cases q with
    | nil => simp [List.isPrefixOf] at hqp
    | cons b q' =>
      simp only [List.isPrefixOf, Bool.and_eq_false_iff] at hpq hqp
      by_cases hab : a = b
      · have hab' : (a == b) = true := by simp [hab]
        have hab'' : (b == a) = true := by simp [hab]
        have hpq' : p'.isPrefixOf q' = false := by
          rcases hpq with h | h
          · rw [hab'] at h; cases h
          · exact h
        have hqp' : q'.isPrefixOf p' = false := by
          rcases hqp with h | h
          · rw [hab''] at h; cases h
          · exact h
        subst hab
        simp only [insertPath, findPath, Xml.findChild_withChildren]
        rw [find?_insertChildren_self _ _ (insertPath_tag vt val q') x.children]
        cases hfind : x.children.find? (fun c => c.tag = a) with
        | some c =>
          simp only [hfind, Option.getD_some, Xml.findChild]
          exact ih q' c hpq' hqp'
        | none =>
          simp only [hfind, Option.getD_none, Xml.findChild]
          rw [ih q' _ hpq' hqp']
          cases p' with
          | nil => simp [List.isPrefixOf] at hpq'
          | cons e p'' =>
            simp [findPath, Xml.findChild, Xml.children, List.find?_nil]
      · simp only [insertPath, findPath, Xml.findChild_withChildren]
        rw [find?_insertChildren_ne _ _ _ (insertPath_tag vt val q') hab
          x.children]
        rfl

theorem findPath_insertPath_self (vt : VarType) (val : PValue) :
    ∀ (q : List String) (x : Xml), ∃ y,
      findPath q (insertPath vt val q x) = some (applyPayload vt val y) := by
  intro q
  induction q with
  | nil => intro x; exact ⟨x, rfl⟩
  | cons s q' ih =>
    intro x
    simp only [insertPath, findPath, Xml.findChild_withChildren]
    rw [find?_insertChildren_self _ _ (insertPath_tag vt val q') x.children]
    exact ih _

/-! ## Lemmas: leaf encoding and decoding -/

theorem Xml.text_withText (x : Xml) (s : Option String) :
    (x.withText s).text = s := by
  cases x; rfl

theorem decodeLeaf_applyPayload (vt : VarType) (val : PValue) (y : Xml)
    (ht : wellTypedB vt val = true) (h1 : vt ≠ .vint) (h2 : vt ≠ .attrib) :
    decodeLeaf vt (applyPayload vt val y) = val := by
  cases vt <;> cases val <;> simp [wellTypedB] at ht <;> try exact absurd rfl h1
  case vstr.str s =>
    simp [applyPayload, decodeLeaf, Xml.text_withText]
  case yesno.bool b =>
    cases b <;> simp [applyPayload, decodeLeaf, Xml.text_withText]
  case member.list xs =>
    simp [applyPayload, decodeLeaf, Xml.childrenTagged,
      Xml.children_withChildren, List.filter_map, Function.comp_def, Xml.tag,
      List.map_map, Xml.text]
  case entry.list xs =>
    simp [applyPayload, decodeLeaf, Xml.childrenTagged,
      Xml.children_withChildren, List.filter_map, Function.comp_def, Xml.tag,
      List.map_map, Xml.getAttr, Xml.attrs, List.find?_cons]
  case attrib.str s => exact absurd rfl h2

/-! ## Lemmas: plain parameters -/

theorem plainParam_fields (p : ParamSpec) (hp : plainParam p = true) :
    p.profiles = [] ∧ p.condition = [] ∧ p.values = [] ∧
      (∃ segs, p.basePath = some segs ∧ litOnlySegs segs = true ∧ segs ≠ []) ∧
      p.vartype ≠ .vint ∧ p.vartype ≠ .attrib := by
  cases hb : p.basePath with
  | none => simp [plainParam, hb] at hp
  | some segs =>
    simp only [plainParam, hb, Bool.and_eq_true, bne_iff_ne,
      List.isEmpty_iff, Bool.not_eq_true', List.isEmpty_eq_false] at hp
    refine ⟨hp.1.1.1.1.1, hp.1.1.1.1.2, hp.1.1.1.2, ⟨segs, rfl, ?_, ?_⟩,
      hp.1.2, hp.2⟩
    · exact hp.1.1.2.1
    · intro he
      rw [he] at hp
      simp at hp

theorem effectiveSpec_plain (v : Nat × Nat × Nat) (p : ParamSpec)
    (segs : List PathSeg) (hpr : p.profiles = [])
    (hbp : p.basePath = some segs) :
    effectiveSpec v p = some (segs, p.vartype) := by
  simp [effectiveSpec, hpr, hbp]

theorem resolveSegs_lit (env : String → PValue) :
    ∀ (segs : List PathSeg), litOnlySegs segs = true →
      resolveSegs env segs = some (segs.filterMap fun sg =>
        match sg with
        | .lit s => some s
        | .ref _ => none) := by
  intro segs
  induction segs with
  | nil => intro _; rfl
  | cons sg rest ih =>
    intro h
    simp only [litOnlySegs, List.all_cons, Bool.and_eq_true] at h
    cases sg with
    | lit s => simp [resolveSegs, ih h.2, List.filterMap_cons]
    | ref n => simp at h

theorem pLitPath_eq (p : ParamSpec) (segs : List PathSeg)
    (hbp : p.basePath = some segs) :
    pLitPath p = segs.filterMap fun sg =>
      match sg with
      | .lit s => some s
      | .ref _ => none := by
  simp [pLitPath, hbp]

theorem pLitPath_ne_nil (p : ParamSpec) (hp : plainParam p = true) :
    pLitPath p ≠ [] := by
  obtain ⟨_, _, _, ⟨segs, hbp, hlit, hne⟩, _, _⟩ := plainParam_fields p hp
  rw [pLitPath_eq p segs hbp]
  cases segs with
  | nil => exact absurd rfl hne
  | cons sg rest =>
    simp only [litOnlySegs, List.all_cons, Bool.and_eq_true] at hlit
    cases sg with
    | lit s => simp [List.filterMap_cons]
    | ref n => simp at hlit

theorem buildParam_plain (v : Nat × Nat × Nat) (env : String → PValue)
    (x : Xml) (p : ParamSpec) (hp : plainParam p = true)
    (he : envOk1 env p = true) :
    buildParam v env x p = .ok (insOne env x p) := by
  obtain ⟨hpr, hcond, hvals, ⟨segs, hbp, hlit, -⟩, hint, hattr⟩ :=
    plainParam_fields p hp
  rw [buildParam]
  rw [effectiveSpec_plain v p segs hpr hbp]
  simp only [hcond, conditionHolds, List.all_nil, if_true]
  rw [resolveSegs_lit env segs hlit]
  cases hv : env p.name with
  | unset => simp [insOne, hv]
  | str s =>
    have hw : wellTypedB p.vartype (.str s) = true := by
      have := he; rw [envOk1, hv] at this; exact this
    simp only [hw, hvals, List.isEmpty_nil, Bool.true_or, if_true]
    cases hvt : p.vartype <;> try exact absurd hvt hattr
    all_goals simp [insOne, hv, hvt, ← pLitPath_eq p segs hbp]
  | bool b =>
    have hw : wellTypedB p.vartype (.bool b) = true := by
      have := he; rw [envOk1, hv] at this; exact this
    simp only [hw, hvals, List.isEmpty_nil, Bool.true_or, if_true]
    cases hvt : p.vartype <;> try exact absurd hvt hattr
    all_goals simp [insOne, hv, hvt, ← pLitPath_eq p segs hbp]
  | int n =>
    have hw : wellTypedB p.vartype (.int n) = true := by
      have := he; rw [envOk1, hv] at this; exact this
    simp only [hw, hvals, List.isEmpty_nil, Bool.true_or, if_true]
    cases hvt : p.vartype <;> try exact absurd hvt hattr
    all_goals simp [insOne, hv, hvt, ← pLitPath_eq p segs hbp]
  | list xs =>
    have hw : wellTypedB p.vartype (.list xs) = true := by
      have := he; rw [envOk1, hv] at this; exact this
    simp only [hw, hvals, List.isEmpty_nil, Bool.true_or, if_true]
    cases hvt : p.vartype <;> try exact absurd hvt hattr
    all_goals simp [insOne, hv, hvt, ← pLitPath_eq p segs hbp]

theorem buildEntity_plain_aux (v : Nat × Nat × Nat) (env : String → PValue) :
    ∀ (ps : List ParamSpec) (x : Xml), ps.all plainParam = true →
      envOkB ps env = true →
      ps.foldlM (buildParam v env) x = .ok (ps.foldl (insOne env) x) := by
  intro ps
  induction ps with
  | nil => intro x _ _; rfl
  | cons p rest ih =>
    intro x hps henv
    simp only [List.all_cons, Bool.and_eq_true] at hps
    simp only [envOkB, List.all_cons, Bool.and_eq_true] at henv
    rw [List.foldlM_cons, buildParam_plain v env x p hps.1 henv.1]
    simp only [List.foldl_cons]
    exact ih (insOne env x p) hps.2 henv.2

theorem buildEntity_plain (ps : List ParamSpec) (v : Nat × Nat × Nat)
    (env : String → PValue) (hps : ps.all plainParam = true)
    (henv : envOkB ps env = true) :
    buildEntity ps v env =
      .ok (ps.foldl (insOne env) (Xml.elem "entry" [] none [])) :=
  buildEntity_plain_aux v env ps _ hps henv

theorem pathIndepB_components (a b : List String)
    (h : pathIndepB a b = true) :
    a.isPrefixOf b = false ∧ b.isPrefixOf a = false := by
  simp only [pathIndepB, Bool.and_eq_true, Bool.not_eq_true'] at h
  exact h

theorem insOne_of_unset (env : String → PValue) (x : Xml) (q : ParamSpec)
    (h : env q.name = .unset) : insOne env x q = x := by
  simp [insOne, h]

theorem insOne_of_set (env : String → PValue) (x : Xml) (q : ParamSpec)
    (h : env q.name ≠ .unset) :
    insOne env x q = insertPath q.vartype (env q.name) (pLitPath q) x := by
  cases hv : env q.name <;> first
  | exact absurd hv h
  | simp [insOne, hv]

theorem findPath_insOne_of_indep (env : String → PValue) (x : Xml)
    (q : ParamSpec) (P : List String)
    (h : env q.name = .unset ∨ pathIndepB P (pLitPath q) = true) :
    findPath P (insOne env x q) = findPath P x := by
  by_cases hu : env q.name = .unset
  · rw [insOne_of_unset env x q hu]
  · rcases h with h | h
    · exact absurd h hu
    · obtain ⟨h1, h2⟩ := pathIndepB_components _ _ h
      rw [insOne_of_set env x q hu]
      exact findPath_insertPath_of_indep _ _ P (pLitPath q) x h1 h2

theorem findPath_foldl_insOne (env : String → PValue) :
    ∀ (ps : List ParamSpec) (x : Xml) (P : List String),
      (∀ p ∈ ps, env p.name = .unset ∨ pathIndepB P (pLitPath p) = true) →
      findPath P (ps.foldl (insOne env) x) = findPath P x := by
  intro ps
  induction ps with
  | nil => intro x P _; rfl
  | cons q rest ih =>
    intro x P h
    simp only [List.foldl_cons]
    rw [ih (insOne env x q) P (fun p hp => h p (List.mem_cons_of_mem q hp))]
    exact findPath_insOne_of_indep env x q P (h q (List.mem_cons_self q rest))

theorem pathIndepB_symm (a b : List String) (h : pathIndepB a b = true) :
    pathIndepB b a = true := by
  simp only [pathIndepB, Bool.and_eq_true, Bool.not_eq_true'] at h ⊢
  exact ⟨h.2, h.1⟩

theorem parseEntityAux_plain (v : Nat × Nat × Nat) (x : Xml) :
    ∀ (ps : List ParamSpec) (env0 : String → PValue),
      ps.all plainParam = true →
      parseEntityAux v x ps env0 =
        ps.map (fun p => (p.name, parseOne x p)) := by
  intro ps
  induction ps with
  | nil => intro env0 _; rfl
  | cons p rest ih =>
    intro env0 hps
    simp only [List.all_cons, Bool.and_eq_true] at hps
    obtain ⟨hpr, hcond, hvals, ⟨segs, hbp, hlit, -⟩, hint, hattr⟩ :=
      plainParam_fields p hps.1
    rw [parseEntityAux]
    rw [effectiveSpec_plain v p segs hpr hbp]
    simp only [hcond, conditionHolds, List.all_nil, if_true]
    rw [resolveSegs_lit env0 segs hlit]
    simp only
    cases hvt : p.vartype <;> try exact absurd hvt hattr
    all_goals
      simp only [List.map_cons, ih _ hps.2, parseOne,
        ← pLitPath_eq p segs hbp, hvt]

theorem roundtrip_core (env : String → PValue) :
    ∀ (ps : List ParamSpec) (x : Xml), pathsIndep ps = true →
      ps.all plainParam = true → envOkB ps env = true →
      (∀ p ∈ ps, findPath (pLitPath p) x = none) →
      ∀ p ∈ ps, parseOne (ps.foldl (insOne env) x) p = env p.name := by
  intro ps
  induction ps with
  | nil => intro x _ _ _ _ p hp; cases hp
  | cons q rest ih =>
    intro x hind hps henv hnone p hp
    simp only [pathsIndep, Bool.and_eq_true] at hind
    simp only [List.all_cons, Bool.and_eq_true] at hps
    simp only [envOkB, List.all_cons, Bool.and_eq_true] at henv
    have hindep : ∀ r ∈ rest, pathIndepB (pLitPath q) (pLitPath r) = true := by
      intro r hr
      have := List.all_eq_true.mp hind.1 r hr
      simpa using this
    rcases List.mem_cons.mp hp with hpq | hpr
    · subst hpq
      by_cases hv : env p.name = .unset
      · have hdef : p.default = .unset := by
          have h1 := henv.1; rw [envOk1, hv] at h1
          exact eq_of_beq h1
        have hpres : findPath (pLitPath p) ((p :: rest).foldl (insOne env) x) =
            findPath (pLitPath p) x := by
          apply findPath_foldl_insOne
          intro r hr
          rcases List.mem_cons.mp hr with hrq | hrr
          · subst hrq; exact Or.inl hv
          · exact Or.inr (hindep r hrr)
        rw [parseOne, hpres, hnone p (List.mem_cons_self p rest), hdef, hv]
      · obtain ⟨-, -, -, -, hint, hattr⟩ := plainParam_fields p hps.1
        have hw : wellTypedB p.vartype (env p.name) = true := by
          have h1 := henv.1
          rw [envOk1] at h1
          cases hvv : env p.name <;> first
          | exact absurd hvv hv
          | rw [hvv] at h1; exact h1
        simp only [List.foldl_cons]
        have hpres : findPath (pLitPath p)
            (rest.foldl (insOne env) (insOne env x p)) =
            findPath (pLitPath p) (insOne env x p) := by
          apply findPath_foldl_insOne
          intro r hr
          exact Or.inr (hindep r hr)
        rw [insOne_of_set env x p hv] at hpres
        obtain ⟨y, hy⟩ := findPath_insertPath_self p.vartype (env p.name)
          (pLitPath p) x
        rw [parseOne, insOne_of_set env x p hv, hpres, hy]
        exact decodeLeaf_applyPayload p.vartype (env p.name) y hw hint hattr
    · simp only [List.foldl_cons]
      apply ih (insOne env x q) hind.2 hps.2 henv.2 _ p hpr
      intro r hr
      rw [findPath_insOne_of_indep env x q (pLitPath r)]
      · exact hnone r (List.mem_cons_of_mem q hr)
      · by_cases hu : env q.name = .unset
        · exact Or.inl hu
        · exact Or.inr (pathIndepB_symm _ _ (hindep r hr))

/-! ## Claim C1 -/

/-- C1: for every entity instance over the `SecurityRule` parameter
specifications that carry no version overrides, holding admissible
parameter values, and for every device version `v`, parsing the XML tree
produced by building the entity at `v` reconstructs exactly the entity's
original parameter values. -/
theorem securityRule_parse_build_roundtrip (v : Nat × Nat × Nat)
    (env : String → PValue)
    (henv : envOkB securityRuleNoOverrideParams env = true) :
    ∃ tree,
      buildEntity securityRuleNoOverrideParams v env = Except.ok tree ∧
        parseEntity securityRuleNoOverrideParams v tree =
          securityRuleNoOverrideParams.map (fun p => (p.name, env p.name)) := by
  have hps : securityRuleNoOverrideParams.all plainParam = true := by decide
  have hind : pathsIndep securityRuleNoOverrideParams = true := by decide
  refine ⟨_, buildEntity_plain _ v env hps henv, ?_⟩
  rw [parseEntity, parseEntityAux_plain v _ _ _ hps]
  apply List.map_congr_left
  intro p hp
  have hnone : ∀ q ∈ securityRuleNoOverrideParams,
      findPath (pLitPath q) (Xml.elem "entry" [] none []) = none := by
    intro q hq
    have hne := pLitPath_ne_nil q (List.all_eq_true.mp hps q hq)
    cases hpl : pLitPath q with
    | nil => exact absurd hpl hne
    | cons s rest =>
      simp [findPath, Xml.findChild, Xml.children, List.find?_nil]
  have hcore := roundtrip_core env securityRuleNoOverrideParams _ hind hps
    henv hnone p hp
  rw [hcore]

/-- Witness for C1: the round trip evaluated at a concrete entity and the
concrete device version 10.0.0. -/
theorem securityRule_parse_build_roundtrip_witness :
    envOkB securityRuleNoOverrideParams sampleEnv = true ∧
      ∃ tree,
        buildEntity securityRuleNoOverrideParams (10, 0, 0) sampleEnv =
          Except.ok tree ∧
          parseEntity securityRuleNoOverrideParams (10, 0, 0) tree =
            securityRuleNoOverrideParams.map
              (fun p => (p.name, sampleEnv p.name)) :=
  ⟨by decide, securityRule_parse_build_roundtrip (10, 0, 0) sampleEnv
    (by decide)⟩

/-! ## Claims about `RulebaseHitCount.refresh` -/

/-- C4: below PAN-OS 8.1.0, `RulebaseHitCount.refresh` raises the
capability error `PanDeviceError` and issues no operational request —
for every style, rules and all-rules argument. -/
theorem rbhcRefresh_lowVersion (ver : Nat × Nat × Nat) (vsys : Option String)
    (children : List Child) (style : String) (rules : Option (List RuleRef))
    (allRules : Bool) (response : Xml)
    (h : versionLt ver (8, 1, 0) = true) :
    (rbhcRefresh ver vsys children style rules allRules response).request =
        none ∧
      (rbhcRefresh ver vsys children style rules allRules response).result =
        .error (.panDevice "Rule hit count is supported in PAN-OS 8.1+") := by
  constructor <;> simp [rbhcRefresh, h]

/-- Witness for C4 at device version 8.0.0. -/
theorem rbhcRefresh_lowVersion_witness :
    versionLt (8, 0, 0) (8, 1, 0) = true ∧
      (rbhcRefresh (8, 0, 0) none [securityChild] "security" none true
          emptyResponse).request = none ∧
      (rbhcRefresh (8, 0, 0) none [securityChild] "security" none true
          emptyResponse).result =
        .error (.panDevice "Rule hit count is supported in PAN-OS 8.1+") :=
  ⟨by decide, rbhcRefresh_lowVersion (8, 0, 0) none [securityChild] "security"
    none true emptyResponse (by decide)⟩

/-- C5: with `all_rules=True`, the issued request is exactly
`<show><rule-hit-count><vsys><vsys-name><entry name=VSYS><rule-base>
<entry name=STYLE><rules><all/>`, irrespective of the attached children
and of any `rules` argument. -/
theorem rbhcRefresh_allRules_request (ver : Nat × Nat × Nat)
    (vsys : Option String) (children : List Child) (style : String)
    (rules : Option (List RuleRef)) (response : Xml)
    (h : versionLt ver (8, 1, 0) = false) :
    (rbhcRefresh ver vsys children style rules true response).request =
      some (Xml.elem "show" [] none
        [.elem "rule-hit-count" [] none
          [.elem "vsys" [] none
            [.elem "vsys-name" [] none
              [.elem "entry" [("name", vsysOrDefault vsys)] none
                [.elem "rule-base" [] none
                  [.elem "entry" [("name", style)] none
                    [.elem "rules" [] none
                      [.elem "all" [] none []]]]]]]]]) := by
  simp [rbhcRefresh, h, hitCountCmd]

/-- Witness for C5 at version 10.0.0, with an attached child and an
explicit rules list both present (and ignored). -/
theorem rbhcRefresh_allRules_request_witness :
    versionLt (10, 0, 0) (8, 1, 0) = false ∧
      (rbhcRefresh (10, 0, 0) (some "vsys3") [securityChild] "security"
          (some [RuleRef.byName "r9"]) true emptyResponse).request =
        some (Xml.elem "show" [] none
          [.elem "rule-hit-count" [] none
            [.elem "vsys" [] none
              [.elem "vsys-name" [] none
                [.elem "entry" [("name", vsysOrDefault (some "vsys3"))] none
                  [.elem "rule-base" [] none
                    [.elem "entry" [("name", "security")] none
                      [.elem "rules" [] none
                        [.elem "all" [] none []]]]]]]]]) :=
  ⟨by decide, rbhcRefresh_allRules_request (10, 0, 0) (some "vsys3")
    [securityChild] "security" (some [RuleRef.byName "r9"]) emptyResponse
    (by decide)⟩

/-- C6: with `all_rules=False`, no explicit rules list and no attached
child of the requested style, `refresh` returns an empty mapping and
issues no request. -/
theorem rbhcRefresh_noMatch_noRequest (ver : Nat × Nat × Nat)
    (vsys : Option String) (children : List Child) (style : String)
    (response : Xml) (h : versionLt ver (8, 1, 0) = false)
    (hno : ∀ c ∈ children, c.hitCountStyle ≠ some style) :
    (rbhcRefresh ver vsys children style none false response).request =
        none ∧
      (rbhcRefresh ver vsys children style none false response).result =
        .ok ([], children) := by
  have hfil : children.filter (kidPred style none) = [] := by
    rw [List.filter_eq_nil_iff]
    intro c hc
    simp [kidPred, hno c hc]
  constructor <;> simp [rbhcRefresh, h, hfil, pyRuleList]

/-- Witness for C6: a rulebase whose only child is a NAT rule, refreshed
with the `security` style. -/
theorem rbhcRefresh_noMatch_noRequest_witness :
    versionLt (10, 0, 0) (8, 1, 0) = false ∧
      (∀ c ∈ [natChild], c.hitCountStyle ≠ some "security") ∧
      (rbhcRefresh (10, 0, 0) none [natChild] "security" none false
          emptyResponse).request = none ∧
      (rbhcRefresh (10, 0, 0) none [natChild] "security" none false
          emptyResponse).result = .ok ([], [natChild]) :=
  ⟨by decide, by decide,
    rbhcRefresh_noMatch_noRequest (10, 0, 0) none [natChild] "security"
      emptyResponse (by decide) (by decide)⟩

/-- C2 (amended): with `all_rules=False` and a non-empty explicit rules
list, the issued request's `<list>` holds exactly one `<member>` per
given rule, in the given order, carrying the rule's name (its uid for
rule objects) — regardless of which children are attached. -/
theorem rbhcRefresh_explicit_rules_request (ver : Nat × Nat × Nat)
    (vsys : Option String) (children : List Child) (style : String)
    (rs : List RuleRef) (response : Xml)
    (h : versionLt ver (8, 1, 0) = false) (hrs : rs ≠ []) :
    (rbhcRefresh ver vsys children style (some rs) false response).request =
      some (Xml.elem "show" [] none
        [.elem "rule-hit-count" [] none
          [.elem "vsys" [] none
            [.elem "vsys-name" [] none
              [.elem "entry" [("name", vsysOrDefault vsys)] none
                [.elem "rule-base" [] none
                  [.elem "entry" [("name", style)] none
                    [.elem "rules" [] none
                      [.elem "list" [] none
                        (rs.map (fun r =>
                          Xml.elem "member" [] (some r.text) []))]]]]]]]]) := by
  have h1 : rs.isEmpty = false := by
    cases rs with
    | nil => exact absurd rfl hrs
    | cons a l => rfl
  simp [rbhcRefresh, h, h1, hrs, hitCountCmd, pyRuleList]

/-- Witness for C2: two explicit rules, a name and a rule object, in
order, with an unrelated child attached. -/
theorem rbhcRefresh_explicit_rules_request_witness :
    versionLt (10, 0, 0) (8, 1, 0) = false ∧
      ([RuleRef.byName "ra", RuleRef.byObj "rb"] ≠ ([] : List RuleRef)) ∧
      (rbhcRefresh (10, 0, 0) none [securityChild] "security"
          (some [RuleRef.byName "ra", RuleRef.byObj "rb"]) false
          emptyResponse).request =
        some (Xml.elem "show" [] none
          [.elem "rule-hit-count" [] none
            [.elem "vsys" [] none
              [.elem "vsys-name" [] none
                [.elem "entry" [("name", vsysOrDefault none)] none
                  [.elem "rule-base" [] none
                    [.elem "entry" [("name", "security")] none
                      [.elem "rules" [] none
                        [.elem "list" [] none
                          ([RuleRef.byName "ra", RuleRef.byObj "rb"].map
                            (fun r =>
                              Xml.elem "member" [] (some r.text) []))]]]]]]]]) :=
  ⟨by decide, by decide,
    rbhcRefresh_explicit_rules_request (10, 0, 0) none [securityChild]
      "security" [RuleRef.byName "ra", RuleRef.byObj "rb"] emptyResponse
      (by decide) (by decide)⟩

/-- Counterexample for C2 as stated: with an explicitly empty rules list,
the code falls back to the (rules-filtered, hence empty) child list and
returns an empty mapping WITHOUT issuing any request, rather than
issuing a request whose `<list>` holds zero members — even though a
style-matching child is attached. -/
theorem rbhcRefresh_empty_rules_counterexample :
    (rbhcRefresh (10, 0, 0) none [securityChild] "security" (some []) false
        emptyResponse).request = none ∧
      (rbhcRefresh (10, 0, 0) none [securityChild] "security" (some []) false
          emptyResponse).result = .ok ([], [securityChild]) := by
  constructor <;> rfl

/-- Every request `RulebaseHitCount.refresh` issues has the fixed
`hitCountCmd` shell around some `<rules>` content. -/
theorem rbhcRefresh_request_shape (ver : Nat × Nat × Nat)
    (vsys : Option String) (children : List Child) (style : String)
    (rules : Option (List RuleRef)) (allRules : Bool) (response : Xml) :
    (rbhcRefresh ver vsys children style rules allRules response).request =
        none ∨
      ∃ k, (rbhcRefresh ver vsys children style rules allRules
        response).request = some (hitCountCmd vsys style k) := by
  by_cases hv : versionLt ver (8, 1, 0) = true
  · left; simp [rbhcRefresh, hv]
  · rw [Bool.not_eq_true] at hv
    cases allRules with
    | true =>
      right
      exact ⟨[Xml.elem "all" [] none []], by simp [rbhcRefresh, hv]⟩
    | false =>
      simp only [rbhcRefresh, hv, Bool.false_eq_true, if_false]
      split
      · left; rfl
      · right; exact ⟨_, rfl⟩

/-- C10: whenever a request is issued, its vsys `<entry>` carries the
name `vsys1` when the device's vsys is unset (`None` or empty), and the
device's vsys verbatim otherwise. -/
theorem rbhcRefresh_vsys_entry (ver : Nat × Nat × Nat) (vsys : Option String)
    (children : List Child) (style : String) (rules : Option (List RuleRef))
    (allRules : Bool) (response : Xml) (r : Xml)
    (hreq : (rbhcRefresh ver vsys children style rules allRules
      response).request = some r) :
    ((vsys = none ∨ vsys = some "") → getVsysEntryName r = some "vsys1") ∧
      (∀ s, vsys = some s → s ≠ "" → getVsysEntryName r = some s) := by
  rcases rbhcRefresh_request_shape ver vsys children style rules allRules
    response with hn | ⟨k, hk⟩
  · rw [hn] at hreq; cases hreq
  · rw [hk] at hreq
    have hr : r = hitCountCmd vsys style k := (Option.some_inj.mp hreq).symm
    subst hr
    have hname : getVsysEntryName (hitCountCmd vsys style k) =
        some (vsysOrDefault vsys) := rfl
    rw [hname]
    constructor
    · rintro (hv | hv) <;> subst hv <;> simp [vsysOrDefault]
    · intro s hv hs
      subst hv
      simp [vsysOrDefault, hs]

/-- Witness for C10: an empty-string vsys yields `vsys1`. -/
theorem rbhcRefresh_vsys_entry_witness :
    getVsysEntryName (hitCountCmd (some "") "security"
      [Xml.elem "all" [] none []]) = some "vsys1" :=
  (rbhcRefresh_vsys_entry (10, 0, 0) (some "") [] "security" none true
    emptyResponse _ rfl).1 (Or.inr rfl)

/-! ## Lemmas: the response loop of `RulebaseHitCount.refresh` -/

theorem uid_set_hitCount (c : Child) (r : HCRec) :
    ({ c with hitCount := r } : Child).uid = c.uid := rfl

theorem kidPred_set_hitCount (style : String) (rules : Option (List RuleRef))
    (c : Child) (r : HCRec) :
    kidPred style rules { c with hitCount := r } = kidPred style rules c := by
  cases c; rfl

theorem updateFirstKid_skeleton (pred : Child → Bool) (n : String)
    (r : HCRec) : ∀ ch : List Child,
      skeleton (updateFirstKid pred n r ch) = skeleton ch := by
  intro ch
  induction ch with
  | nil => rfl
  | cons c cs ih =>
    by_cases h : (pred c && c.uid = n) = true
    · simp [updateFirstKid, h, skeleton]
    · simp only [updateFirstKid, if_neg h]
      simp only [skeleton, List.map_cons] at ih ⊢
      rw [ih]

theorem hasKid_cons (pred : Child → Bool) (c : Child) (cs : List Child)
    (n : String) :
    hasKid pred (c :: cs) n =
      ((pred c && c.uid = n) || hasKid pred cs n) := by
  simp only [hasKid, List.any_filter, List.any_cons]

theorem hasKid_updateFirstKid (pred : Child → Bool)
    (hpred : ∀ c r, pred { c with hitCount := r } = pred c) (n : String)
    (r : HCRec) (m : String) : ∀ ch : List Child,
      hasKid pred (updateFirstKid pred n r ch) m = hasKid pred ch m := by
  intro ch
  induction ch with
  | nil => rfl
  | cons c cs ih =>
    by_cases h : (pred c && c.uid = n) = true
    · rw [updateFirstKid, if_pos h, hasKid_cons, hasKid_cons]
      rw [hpred, uid_set_hitCount]
    · rw [updateFirstKid, if_neg h, hasKid_cons, hasKid_cons, ih]

theorem kidMatch_set_hitCount (pred : Child → Bool)
    (hpred : ∀ c r, pred { c with hitCount := r } = pred c) (n : String)
    (c : Child) (r : HCRec) :
    kidMatch pred n { c with hitCount := r } = kidMatch pred n c := by
  simp only [kidMatch, hpred, uid_set_hitCount]

theorem kidSnapshot_cons (pred : Child → Bool) (c : Child) (cs : List Child)
    (n : String) :
    kidSnapshot pred (c :: cs) n =
      (if kidMatch pred n c then some c.hitCount
       else kidSnapshot pred cs n) := by
  simp only [kidSnapshot, List.find?_cons]
  by_cases h : kidMatch pred n c = true
  · simp [h]
  · simp [h]

theorem kidSnapshot_updateFirstKid_self (pred : Child → Bool)
    (hpred : ∀ c r, pred { c with hitCount := r } = pred c) (n : String)
    (r : HCRec) : ∀ ch : List Child, hasKid pred ch n = true →
      kidSnapshot pred (updateFirstKid pred n r ch) n = some r := by
  intro ch
  induction ch with
  | nil => intro h; simp [hasKid] at h
  | cons c cs ih =>
    intro h
    by_cases hm : (pred c && c.uid = n) = true
    · rw [updateFirstKid, if_pos hm, kidSnapshot_cons]
      rw [if_pos (by
        rw [kidMatch_set_hitCount pred hpred]
        exact hm)]
    · rw [updateFirstKid, if_neg hm, kidSnapshot_cons, if_neg (by
        rw [kidMatch]
        exact hm)]
      apply ih
      rw [hasKid_cons] at h
      rcases Bool.or_eq_true _ _ ▸ h with h' | h'
      · exact absurd h' hm
      · exact h'

theorem kidSnapshot_updateFirstKid_ne (pred : Child → Bool)
    (_hpred : ∀ c r, pred { c with hitCount := r } = pred c) (n : String)
    (r : HCRec) (m : String) (hmn : m ≠ n) : ∀ ch : List Child,
      kidSnapshot pred (updateFirstKid pred n r ch) m =
        kidSnapshot pred ch m := by
  intro ch
  induction ch with
  | nil => rfl
  | cons c cs ih =>
    by_cases hm : (pred c && c.uid = n) = true
    · have hu : c.uid = n := by
        have h2 := (Bool.and_eq_true _ _ ▸ hm).2
        exact of_decide_eq_true h2
      have hmc' : kidMatch pred m { c with hitCount := r } = false := by
        simp [kidMatch, uid_set_hitCount, hu, Ne.symm hmn]
      have hmc : kidMatch pred m c = false := by
        simp [kidMatch, hu, Ne.symm hmn]
      rw [updateFirstKid, if_pos hm, kidSnapshot_cons,
        if_neg (by rw [hmc']; exact Bool.false_ne_true), kidSnapshot_cons,
        if_neg (by rw [hmc]; exact Bool.false_ne_true)]
    · rw [updateFirstKid, if_neg hm, kidSnapshot_cons, kidSnapshot_cons, ih]

theorem dictFind_dictInsert_self (m : List (String × HCEntry)) (k : String)
    (v : HCEntry) : dictFind (dictInsert m k v) k = some v := by
  induction m with
  | nil => simp [dictInsert, dictFind, List.find?_cons]
  | cons a rest ih =>
    obtain ⟨ak, av⟩ := a
    by_cases h : ak = k
    · subst h
      simp [dictInsert, dictFind, List.find?_cons]
    · simp only [dictInsert, if_neg h]
      simp only [dictFind, List.find?_cons, decide_eq_false h]
      simp only [dictFind] at ih
      exact ih

theorem dictFind_dictInsert_ne (m : List (String × HCEntry)) (k : String)
    (v : HCEntry) (k' : String) (h : k' ≠ k) :
    dictFind (dictInsert m k v) k' = dictFind m k' := by
  induction m with
  | nil =>
    simp [dictInsert, dictFind, List.find?_cons, decide_eq_false
      (Ne.symm h)]
  | cons a rest ih =>
    obtain ⟨ak, av⟩ := a
    by_cases hak : ak = k
    · subst hak
      simp only [dictInsert, if_pos rfl]
      simp [dictFind, List.find?_cons, decide_eq_false (Ne.symm h)]
    · simp only [dictInsert, if_neg hak]
      by_cases h2 : ak = k'
      · subst h2
        simp [dictFind, List.find?_cons]
      · simp only [dictFind, List.find?_cons, decide_eq_false h2]
        simp only [dictFind] at ih
        exact ih

theorem hasKid_eq_of_skeleton (pred : Child → Bool)
    (g : String × Option String → Bool)
    (hg : ∀ c, pred c = g (c.uid, c.hitCountStyle)) (ch₁ ch₂ : List Child)
    (hsk : skeleton ch₁ = skeleton ch₂) (n : String) :
    hasKid pred ch₁ n = hasKid pred ch₂ n := by
  have key : ∀ ch : List Child, hasKid pred ch n =
      (skeleton ch).any (fun z => g z && z.fst = n) := by
    intro ch
    induction ch with
    | nil => rfl
    | cons c cs ihc =>
      rw [hasKid_cons,
        show skeleton (c :: cs) = (c.uid, c.hitCountStyle) :: skeleton cs
          from rfl,
        List.any_cons, ihc, hg c]
  rw [key, key, hsk]

theorem processEntries_good (pred : Child → Bool)
    (hpred : ∀ c r, pred { c with hitCount := r } = pred c) :
    ∀ (entries : List Xml) (children : List Child)
      (ans ans' : List (String × HCEntry)) (ch' : List Child),
      processEntries pred entries children ans = .ok (ans', ch') →
      goodAns pred children ans →
      skeleton ch' = skeleton children ∧ goodAns pred ch' ans' := by
  intro entries
  induction entries with
  | nil =>
    intro children ans ans' ch' h hgood
    rw [processEntries] at h
    simp only [Except.ok.injEq, Prod.mk.injEq] at h
    obtain ⟨h1, h2⟩ := h
    subst h1
    subst h2
    exact ⟨rfl, hgood⟩
  | cons elm rest ih =>
    intro children ans ans' ch' h hgood
    rw [processEntries] at h
    cases hname : elm.getAttr "name" with
    | none => simp [hname] at h
    | some name =>
      simp only [hname] at h
      cases hr : hcRefreshXml (some elm) with
      | error e =>
        rw [hr] at h
        have h2 : (Except.error e :
            Except Err (List (String × HCEntry) × List Child)) =
            Except.ok (ans', ch') := h
        cases h2
      | ok r =>
        rw [hr] at h
        have h2 : (if hasKid pred children name then
            processEntries pred rest (updateFirstKid pred name r children)
              (dictInsert ans name (HCEntry.live r))
          else
            processEntries pred rest children
              (dictInsert ans name (HCEntry.standalone r))) =
            Except.ok (ans', ch') := h
        clear h
        by_cases hask : hasKid pred children name = true
        · rw [if_pos hask] at h2
          have hask' : hasKid pred children name = true := hask
          have hnew : goodAns pred (updateFirstKid pred name r children)
              (dictInsert ans name (.live r)) := by
            intro m e hm
            by_cases hmn : m = name
            · subst hmn
              rw [dictFind_dictInsert_self] at hm
              have he : e = .live r := (Option.some_inj.mp hm).symm
              subst he
              constructor
              · intro _
                exact ⟨r, rfl,
                  kidSnapshot_updateFirstKid_self pred hpred m r children
                    hask'⟩
              · intro hf
                rw [hasKid_updateFirstKid pred hpred] at hf
                rw [hask'] at hf
                cases hf
            · rw [dictFind_dictInsert_ne _ _ _ _ hmn] at hm
              obtain ⟨hA, hB⟩ := hgood m e hm
              constructor
              · intro ht
                rw [hasKid_updateFirstKid pred hpred] at ht
                obtain ⟨r', he, hsnap⟩ := hA ht
                refine ⟨r', he, ?_⟩
                rw [kidSnapshot_updateFirstKid_ne pred hpred name r m hmn]
                exact hsnap
              · intro hf
                rw [hasKid_updateFirstKid pred hpred] at hf
                exact hB hf
          obtain ⟨hsk, hgood'⟩ := ih _ _ _ _ h2 hnew
          exact ⟨hsk.trans (updateFirstKid_skeleton pred name r children),
            hgood'⟩
        · rw [if_neg hask] at h2
          have hnew : goodAns pred children
              (dictInsert ans name (.standalone r)) := by
            intro m e hm
            by_cases hmn : m = name
            · subst hmn
              rw [dictFind_dictInsert_self] at hm
              have he : e = .standalone r := (Option.some_inj.mp hm).symm
              subst he
              constructor
              · intro ht
                exact absurd ht hask
              · intro _
                exact ⟨r, rfl⟩
            · rw [dictFind_dictInsert_ne _ _ _ _ hmn] at hm
              exact hgood m e hm
          exact ih _ _ _ _ h2 hnew

/-- When the version check passes, the result of `refresh` is either the
early empty mapping or the outcome of the response loop started on the
full child list with an empty accumulator. -/
theorem rbhcRefresh_result_cases (ver : Nat × Nat × Nat)
    (vsys : Option String) (children : List Child) (style : String)
    (rules : Option (List RuleRef)) (allRules : Bool) (response : Xml)
    (hv : versionLt ver (8, 1, 0) = false) :
    (rbhcRefresh ver vsys children style rules allRules response).result =
        Except.ok ([], children) ∨
      (rbhcRefresh ver vsys children style rules allRules response).result =
        processEntries (kidPred style rules) (hitCountEntries response)
          children [] := by
  unfold rbhcRefresh
  rw [if_neg (by rw [hv]; exact Bool.false_ne_true)]
  cases allRules with
  | true => right; rfl
  | false =>
    rw [if_neg Bool.false_ne_true]
    by_cases hre : (pyRuleList rules
        (children.filter (kidPred style rules))).isEmpty = true
    · rw [if_pos hre]
      left
      with_reducible rfl
    · rw [if_neg hre]
      right
      with_reducible rfl

/-- C3 (amended): whenever `RulebaseHitCount.refresh` returns a mapping,
every name in it maps to the live, in-place-updated snapshot of the
first SELECTED child of that name — selected meaning of matching
`HIT_COUNT_STYLE` and, when an explicit rules list was given, with uid
among the given rule names — when such a child exists, and to a freshly
synthesized standalone record otherwise. -/
theorem rbhcRefresh_mapping (ver : Nat × Nat × Nat) (vsys : Option String)
    (children : List Child) (style : String) (rules : Option (List RuleRef))
    (allRules : Bool) (response : Xml) (ans : List (String × HCEntry))
    (ch' : List Child)
    (hok : (rbhcRefresh ver vsys children style rules allRules
      response).result = Except.ok (ans, ch'))
    (n : String) (e : HCEntry) (hfind : dictFind ans n = some e) :
    (hasKid (kidPred style rules) children n = true →
      ∃ r, e = .live r ∧
        kidSnapshot (kidPred style rules) ch' n = some r) ∧
      (hasKid (kidPred style rules) children n = false →
        ∃ r, e = .standalone r) := by
  have hpred := kidPred_set_hitCount style rules
  have hempty : goodAns (kidPred style rules) children [] := by
    intro m e' hm
    simp [dictFind] at hm
  by_cases hv : versionLt ver (8, 1, 0) = true
  · simp [rbhcRefresh, hv] at hok
  · rw [Bool.not_eq_true] at hv
    have hmain : ∀ hok2 : processEntries (kidPred style rules)
        (hitCountEntries response) children [] = Except.ok (ans, ch'),
        (hasKid (kidPred style rules) children n = true →
          ∃ r, e = .live r ∧
            kidSnapshot (kidPred style rules) ch' n = some r) ∧
          (hasKid (kidPred style rules) children n = false →
            ∃ r, e = .standalone r) := by
      intro hok2
      obtain ⟨hsk, hgood⟩ := processEntries_good _ hpred _ _ _ _ _ hok2
        hempty
      obtain ⟨hA, hB⟩ := hgood n e hfind
      have hconv : hasKid (kidPred style rules) children n =
          hasKid (kidPred style rules) ch' n :=
        hasKid_eq_of_skeleton (kidPred style rules)
          (fun z => z.snd = some style &&
            (match rules with
             | none => true
             | some rs => uidInRules rs z.fst))
          (fun c => by cases rules <;> rfl) children ch' hsk.symm n
      constructor
      · intro ht
        exact hA (hconv ▸ ht)
      · intro hf
        exact hB (hconv ▸ hf)
    rcases rbhcRefresh_result_cases ver vsys children style rules allRules
      response hv with hcase | hcase
    · have hok3 : Except.ok (([] : List (String × HCEntry)), children) =
        Except.ok (ans, ch') := hcase.symm.trans hok
      injection hok3 with hp
      injection hp with h1 h2
      subst h1
      simp [dictFind] at hfind
    · exact hmain (hcase.symm.trans hok)

/-- Counterexample for C3 as stated: a rule entity named `r1` IS attached
to the rulebase (as a NAT rule), the response reports an entry named
`r1`, yet the returned mapping holds a freshly synthesized standalone
record and no child snapshot is updated, because the attached child's
`HIT_COUNT_STYLE` differs from the requested style and the loop only
consults the style-filtered children. -/
theorem rbhcRefresh_mapping_counterexample :
    (rbhcRefresh (10, 0, 0) none [natChild] "security" none true
        responseR1).result =
      Except.ok ([("r1", HCEntry.standalone rec7)], [natChild]) := rfl

/-- Witness for C3 (amended): a selected child named `r1` is updated in
place and the mapping returns its live snapshot. -/
theorem rbhcRefresh_mapping_witness :
    ∃ r, HCEntry.live rec7 = HCEntry.live r ∧
      kidSnapshot (kidPred "security" none)
        [Child.mk "r1" (some "security") rec7] "r1" = some r :=
  (rbhcRefresh_mapping (10, 0, 0) none [securityChild] "security" none true
    responseR1 [("r1", HCEntry.live rec7)]
    [Child.mk "r1" (some "security") rec7] rfl "r1" (HCEntry.live rec7)
    rfl).1 (by decide)

/-! ## Claim C7 -/

theorem opInt_ok (elm : Option Xml) (field : String) (v : Option Int)
    (h : opInt elm field = .ok v) :
    v = (opStr elm field).bind pyParseInt := by
  rw [opInt] at h
  cases ho : opStr elm field with
  | none =>
    rw [ho] at h
    have h' : Except.ok (none : Option Int) = Except.ok v := h
    injection h' with h1
    rw [← h1]
    rfl
  | some s =>
    rw [ho] at h
    have h' : (match pyParseInt s with
      | some n => Except.ok (some n)
      | none => (Except.error Err.valueError : Except Err (Option Int))) =
        Except.ok v := h
    cases hp : pyParseInt s with
    | none =>
      rw [hp] at h'
      cases h'
    | some n =>
      rw [hp] at h'
      injection h' with h1
      rw [← h1]
      show _ = pyParseInt s
      rw [hp]

/-- C7: whenever `HitCount._refresh_xml` succeeds on an element, `latest`
holds the element's `latest` text as a string, while `hit-count` and the
five timestamp fields hold their texts decoded as integers; every field
whose XML child node is absent is `none` (never zero), since `Option.bind`
sends an absent text to `none`. -/
theorem hcRefreshXml_fields (e : Xml) (r : HCRec)
    (h : hcRefreshXml (some e) = .ok r) :
    r.latest = opStr (some e) "latest" ∧
      r.hit_count = (opStr (some e) "hit-count").bind pyParseInt ∧
      r.last_hit_timestamp =
        (opStr (some e) "last-hit-timestamp").bind pyParseInt ∧
      r.last_reset_timestamp =
        (opStr (some e) "last-reset-timestamp").bind pyParseInt ∧
      r.first_hit_timestamp =
        (opStr (some e) "first-hit-timestamp").bind pyParseInt ∧
      r.rule_creation_timestamp =
        (opStr (some e) "rule-creation-timestamp").bind pyParseInt ∧
      r.rule_modification_timestamp =
        (opStr (some e) "rule-modification-timestamp").bind pyParseInt := by
  rw [hcRefreshXml] at h
  cases h1 : opInt (some e) "hit-count" with
  | error err =>
    rw [h1] at h
    have h' : (Except.error err : Except Err HCRec) = .ok r := h
    cases h'
  | ok v1 =>
    rw [h1] at h
    cases h2 : opInt (some e) "last-hit-timestamp" with
    | error err =>
      rw [h2] at h
      have h' : (Except.error err : Except Err HCRec) = .ok r := h
      cases h'
    | ok v2 =>
      rw [h2] at h
      cases h3 : opInt (some e) "last-reset-timestamp" with
      | error err =>
        rw [h3] at h
        have h' : (Except.error err : Except Err HCRec) = .ok r := h
        cases h'
      | ok v3 =>
        rw [h3] at h
        cases h4 : opInt (some e) "first-hit-timestamp" with
        | error err =>
          rw [h4] at h
          have h' : (Except.error err : Except Err HCRec) = .ok r := h
          cases h'
        | ok v4 =>
          rw [h4] at h
          cases h5 : opInt (some e) "rule-creation-timestamp" with
          | error err =>
            rw [h5] at h
            have h' : (Except.error err : Except Err HCRec) = .ok r := h
            cases h'
          | ok v5 =>
            rw [h5] at h
            cases h6 : opInt (some e) "rule-modification-timestamp" with
            | error err =>
              rw [h6] at h
              have h' : (Except.error err : Except Err HCRec) = .ok r := h
              cases h'
            | ok v6 =>
              rw [h6] at h
              have h' : Except.ok
                  (⟨opStr (some e) "latest", v1, v2, v3, v4, v5, v6⟩ :
                    HCRec) = .ok r := h
              injection h' with h''
              subst h''
              exact ⟨rfl, opInt_ok _ _ _ h1, opInt_ok _ _ _ h2,
                opInt_ok _ _ _ h3, opInt_ok _ _ _ h4, opInt_ok _ _ _ h5,
                opInt_ok _ _ _ h6⟩

/-- Witness for C7: the spec's example
`<entry name="r1"><hit-count>42</hit-count></entry>` with no `latest`
child parses to `hit_count = 42` and `latest = None`. -/
theorem hcRefreshXml_fields_witness :
    hcRefreshXml (some entry42) = Except.ok rec42 ∧
      rec42.hit_count = some 42 ∧ rec42.latest = none := by
  have h := hcRefreshXml_fields entry42 rec42 rfl
  refine ⟨rfl, ?_, ?_⟩
  · rw [h.2.1]
    rfl
  · rw [h.1]
    rfl

/-! ## Claim C8 -/

/-- C8 (amended): for a rule with a rulebase parent, the audit-comment
history query's filter is exactly `(subtype eq audit-comment)` ANDed with
the four `path contains` clauses — rule name, rule-type segment of
`xpath_short`, last segment of the parent's xpath, and the parent's vsys
identity, in that order — and the extra query parameters are `dir` set to
the direction, `uniq` always set to `yes`, and, only when `skip` is
given, `skip` set to its integer value. -/
theorem history_query (uid xpathShort : String) (p : RBParent)
    (count : Int) (direction : String) (skip : Option Int) (response : Xml)
    (seg2 : String)
    (hseg : pyIdxNeg2 (splitSlash xpathShort) = .ok seg2)
    (hkind : p.kind ≠ .other) :
    (history uid xpathShort (some p) count direction skip response).query =
      some ⟨"config", count,
        "(subtype eq audit-comment)" ++ " and (path contains \x27\\\x27" ++
          uid ++ "\\\x27\x27)" ++ " and (path contains \x27" ++ seg2 ++
          "\x27)" ++ " and (path contains " ++
          (splitSlash p.xpath).getLastD "" ++ ")" ++
          " and (path contains \x27\\\x27" ++ pyFormatOptStr p.vsys ++
          "\\\x27\x27)",
        [("dir", direction), ("uniq", "yes")] ++
          (match skip with
           | none => []
           | some n => [("skip", toString n)])⟩ := by
  unfold history
  rw [hseg]
  obtain ⟨kind, px, pv⟩ := p
  cases kind with
  | other => exact absurd rfl hkind
  | rulebase => rfl
  | preRulebase => rfl
  | postRulebase => rfl

/-- Counterexample for C8 as stated: at a concrete call with no `skip`,
the extra query parameters sent are `dir` AND `uniq=yes`, not `dir`
alone. -/
theorem history_extraQs_counterexample :
    ((history "r1" "/vsys/rulebase/security/rules" (some c8Parent) 100
        "backward" none emptyResponse).query).map LogQuery.extraQs =
      some [("dir", "backward"), ("uniq", "yes")] ∧
      some [("dir", "backward"), ("uniq", "yes")] ≠
        some [("dir", "backward")] := by
  constructor
  · rfl
  · decide

/-- Witness for C8 (amended): the full query at a concrete call with a
skip value. -/
theorem history_query_witness :
    (history "r1" "/vsys/rulebase/security/rules" (some c8Parent) 100
        "backward" (some 200) emptyResponse).query =
      some ⟨"config", 100,
        "(subtype eq audit-comment)" ++ " and (path contains \x27\\\x27" ++
          "r1" ++ "\\\x27\x27)" ++ " and (path contains \x27" ++
          "security" ++ "\x27)" ++ " and (path contains " ++
          (splitSlash c8Parent.xpath).getLastD "" ++ ")" ++
          " and (path contains \x27\\\x27" ++
          pyFormatOptStr c8Parent.vsys ++ "\\\x27\x27)",
        [("dir", "backward"), ("uniq", "yes")] ++ [("skip", toString (200 : Int))]⟩ :=
  history_query "r1" "/vsys/rulebase/security/rules" c8Parent 100 "backward"
    (some 200) emptyResponse "security" rfl (by decide)

/-! ## Claim C9 -/

/-- C9: for every audit-comment log entry whose construction succeeds,
the stored time is `None` when the `time_generated` node is absent, the
parsed calendar instant when its text matches the `%Y/%m/%d %H:%M:%S`
pattern, and the raw text verbatim when parsing fails — never an
exception. -/
theorem auditCommentLog_time (e : Xml) (l : ACLRec)
    (h : mkAuditCommentLog e = .ok l) :
    (opStr (some e) "time_generated" = none → l.time = .none) ∧
      (∀ s d, opStr (some e) "time_generated" = some s →
        pyStrptimeYmdHms s = some d → l.time = .dt d) ∧
      (∀ s, opStr (some e) "time_generated" = some s →
        pyStrptimeYmdHms s = none → l.time = .raw s) := by
  rw [mkAuditCommentLog] at h
  cases h1 : opInt (some e) "config_ver" with
  | error err =>
    rw [h1] at h
    have h' : (Except.error err : Except Err ACLRec) = .ok l := h
    cases h'
  | ok v =>
    rw [h1] at h
    have h' : Except.ok (⟨opStr (some e) "admin", opStr (some e) "comment",
        v, opDatetime (some e) "time_generated"⟩ : ACLRec) = .ok l := h
    injection h' with h''
    subst h''
    refine ⟨?_, ?_, ?_⟩
    · intro hn
      show opDatetime (some e) "time_generated" = .none
      rw [opDatetime, hn]
    · intro s d hs hd
      show opDatetime (some e) "time_generated" = .dt d
      rw [opDatetime, hs]
      show (match pyStrptimeYmdHms s with
        | some d => TimeVal.dt d
        | Option.none => TimeVal.raw s) = TimeVal.dt d
      rw [hd]
    · intro s hs hd
      show opDatetime (some e) "time_generated" = .raw s
      rw [opDatetime, hs]
      show (match pyStrptimeYmdHms s with
        | some d => TimeVal.dt d
        | Option.none => TimeVal.raw s) = TimeVal.raw s
      rw [hd]

/-- Witness for C9: `"2021/01/02 03:04:05"` parses to that exact calendar
instant, `"not-a-date"` is preserved verbatim, and an absent
`time_generated` stays `None`. -/
theorem auditCommentLog_time_witness :
    (mkAuditCommentLog entryGoodTime = .ok logGood ∧
        logGood.time = .dt ⟨2021, 1, 2, 3, 4, 5⟩) ∧
      (mkAuditCommentLog entryBadTime = .ok logBad ∧
        logBad.time = .raw "not-a-date") ∧
      (mkAuditCommentLog entryNoTime = .ok logNone ∧
        logNone.time = .none) := by
  refine ⟨⟨rfl, ?_⟩, ⟨rfl, ?_⟩, ⟨rfl, ?_⟩⟩
  · exact (auditCommentLog_time entryGoodTime logGood rfl).2.1
      "2021/01/02 03:04:05" ⟨2021, 1, 2, 3, 4, 5⟩ rfl rfl
  · exact (auditCommentLog_time entryBadTime logBad rfl).2.2
      "not-a-date" rfl rfl
  · exact (auditCommentLog_time entryNoTime logNone rfl).1 rfl

end PanosPolicies
